import Mathlib

/-!
Shallow embedding of the migration review engine of this repository.

The authoritative source is `src/frontend/src/hooks/useMigration.ts` (the
batched implementation).  `src/unnamed/part_002` is the sequential
implementation of the same hook and `src/unnamed/part_001` is the types
module.  React state updates of the form `setNotes(prev => ...)` are modelled
as pure functions on the list of note states; the remote calls
(`generateMigrationPreview`, `generateBatchMigrationPreview`,
`approveMigration`) are opaque, so their outcomes are passed in explicitly.
-/

/-- Status union of `MigrationNoteState.status` (src/unnamed/part_001, line 147). -/
inductive Status where
  | pending
  | previewing
  | ready
  | approving
  | approved
  | skipped
  | error
deriving DecidableEq, Repr

/-- CardType union (src/unnamed/part_001, line 1). -/
inductive CardType where
  | word
  | phrase
  | sentence
deriving DecidableEq, Repr

/-- A JS `Record<string, string>` as an association list (first binding wins). -/
abbrev Fields := List (String × String)

/-- Lookup of `m[k]` in a `Record<string, string>`. -/
def lookupField : Fields → String → Option String
  | [], _ => none
  | (k', v') :: rest, k => if k' = k then some v' else lookupField rest k

/-- `m[k] || ''`: the value, or the empty string when the key is missing
(an empty-string value is also mapped to the empty string, as in JS). -/
def fieldOrEmpty (fs : Fields) (k : String) : String :=
  (lookupField fs k).getD ""

/-- `m[k] || undefined`: `none` when the key is missing or its value is the
empty string (falsy in JS). -/
def fieldOrNone (fs : Fields) (k : String) : Option String :=
  match lookupField fs k with
  | some v => if v = "" then none else some v
  | none => none

/-- `s || undefined` on a string-typed value. -/
def strOrNone (s : String) : Option String :=
  if s = "" then none else some s

/-- JS object spread `{...m, [k]: v}`: replace the binding of `k` in place, or
append it when absent. -/
def setField : Fields → String → String → Fields
  | [], k, v => [(k, v)]
  | (k', v') :: rest, k, v =>
      if k' = k then (k, v) :: rest else (k', v') :: setField rest k v

/-- `MigrationNote` (src/unnamed/part_001, lines 131-136). -/
structure MigrationNote where
  note_id : Nat
  old_fields : Fields
  sound : String
  sound_example : String
deriving DecidableEq, Repr

/-- `PreviewResponse` (src/unnamed/part_001, lines 138-142). -/
structure PreviewResponse where
  note_id : Nat
  new_fields : Fields
  auto_classified_type : CardType
deriving DecidableEq, Repr

/-- `MigrationNoteState` (src/unnamed/part_001, lines 144-149), plus the
`isCore` flag used by the batched hook (defaulted `true` on load).  The
sequential hook never reads or writes `isCore`. -/
structure MigrationNoteState where
  note : MigrationNote
  preview : Option PreviewResponse
  status : Status
  error : Option String
  isCore : Bool
deriving DecidableEq, Repr

/-- The `notes` React state: one entry per loaded legacy record. -/
abbrev NotesState := List MigrationNoteState

/-- Copy-and-replace of one index (`const newNotes = [...prev]; newNotes[i] = f(newNotes[i])`).
Out-of-range indices leave the list unchanged. -/
def modifyIdx {α : Type} (f : α → α) : Nat → List α → List α
  | _, [] => []
  | 0, x :: xs => f x :: xs
  | n + 1, x :: xs => x :: modifyIdx f n xs

/-- One fresh entry per loaded note (useMigration.ts, lines 140-145):
`{ note, preview: null, status: 'pending', isCore: true }`. -/
def initEntry (n : MigrationNote) : MigrationNoteState :=
  { note := n, preview := none, status := Status.pending, error := none, isCore := true }

/-- The note-state list built by `loadNotes` from a fetched record list
(useMigration.ts, lines 128-154). -/
def loadNotes (ns : List MigrationNote) : NotesState :=
  ns.map initEntry

/-- The request body of a single `generateMigrationPreview` call.  The API
accepts optional fixed English/Dutch translations (they are sent by the
sequential hook and omitted by the batched one); an omitted key is `undefined`
on the wire, i.e. `none`. -/
structure PreviewRequest where
  noteId : Nat
  rawInput : String
  fixedEnglish : Option String
  fixedDutch : Option String
  extraNotes : Option String
  preserveSound : Option String
  preserveSoundExample : Option String
deriving DecidableEq, Repr

/-- Request built by `generateSinglePreview` in the batched hook
(useMigration.ts, lines 157-175): no fixed translations are passed. -/
def generateSinglePreviewRequest (e : MigrationNoteState) : PreviewRequest :=
  { noteId := e.note.note_id
    rawInput := fieldOrEmpty e.note.old_fields "Kana"
    fixedEnglish := none
    fixedDutch := none
    extraNotes := fieldOrNone e.note.old_fields "Extra"
    preserveSound := strOrNone e.note.sound
    preserveSoundExample := strOrNone e.note.sound_example }

/-- Request built by `generateSinglePreview` in the sequential hook
(src/unnamed/part_002, lines 135-154): old English/Dutch are passed as fixed. -/
def seqGenerateSinglePreviewRequest (e : MigrationNoteState) : PreviewRequest :=
  { noteId := e.note.note_id
    rawInput := fieldOrEmpty e.note.old_fields "Kana"
    fixedEnglish := fieldOrNone e.note.old_fields "English"
    fixedDutch := fieldOrNone e.note.old_fields "Nederlands"
    extraNotes := fieldOrNone e.note.old_fields "Extra"
    preserveSound := strOrNone e.note.sound
    preserveSoundExample := strOrNone e.note.sound_example }

/-- First phase of `regeneratePreview` (useMigration.ts, lines 297-301):
`{ ...entry, preview: null, status: 'previewing', error: undefined }`. -/
def regenStart (i : Nat) (s : NotesState) : NotesState :=
  modifyIdx (fun e => { e with preview := none, status := Status.previewing, error := none }) i s

/-- Second phase of `regeneratePreview` (useMigration.ts, lines 305-317):
apply the outcome of the awaited generation call. -/
def regenFinish (i : Nat) (outcome : Option PreviewResponse) (s : NotesState) : NotesState :=
  modifyIdx (fun e =>
    match outcome with
    | some p => { e with preview := some p, status := Status.ready }
    | none => { e with status := Status.error, error := some "Preview generation failed" }) i s

/-- `regeneratePreview` (useMigration.ts, lines 291-318), run to completion with
the generation outcome supplied; also returns the request it issued, if any.
The only guard is `if (!noteState) return`. -/
def regeneratePreview (i : Nat) (outcome : Option PreviewResponse) (s : NotesState) :
    NotesState × Option PreviewRequest :=
  match s[i]? with
  | none => (s, none)
  | some e => (regenFinish i outcome (regenStart i s), some (generateSinglePreviewRequest e))

/-- `updatePreviewField` (useMigration.ts, lines 321-339): guarded only by
`if (!current.preview) return prev`. -/
def updatePreviewField (i : Nat) (field value : String) (s : NotesState) : NotesState :=
  match s[i]? with
  | none => s
  | some current =>
    match current.preview with
    | none => s
    | some p =>
        modifyIdx (fun _ =>
          { current with preview := some { p with new_fields := setField p.new_fields field value } }) i s

/-- `updateCardType` (useMigration.ts, lines 342-357): guarded only by
`if (!current.preview) return prev`. -/
def updateCardType (i : Nat) (ct : CardType) (s : NotesState) : NotesState :=
  match s[i]? with
  | none => s
  | some current =>
    match current.preview with
    | none => s
    | some p =>
        modifyIdx (fun _ => { current with preview := some { p with auto_classified_type := ct } }) i s

/-- `toggleCore` (useMigration.ts, lines 360-367). -/
def toggleCore (i : Nat) (s : NotesState) : NotesState :=
  match s[i]? with
  | none => s
  | some current => modifyIdx (fun _ => { current with isCore := !current.isCore }) i s

/-- Tag string of a card type, as it is spliced into the tags array. -/
def cardTypeTag : CardType → String
  | CardType.word => "word"
  | CardType.phrase => "phrase"
  | CardType.sentence => "sentence"

/-- The body of an `approveMigration` commit call. -/
structure ApproveRequest where
  noteId : Nat
  newFields : Fields
  tags : List String
deriving DecidableEq, Repr

/-- Commit payload of the batched hook (useMigration.ts, lines 382-386):
`tags: [source, isCore !== false ? 'core' : 'extra', auto_classified_type]`. -/
def approveRequest (source : String) (e : MigrationNoteState) (p : PreviewResponse) : ApproveRequest :=
  { noteId := e.note.note_id
    newFields := p.new_fields
    tags := [source, if e.isCore then "core" else "extra", cardTypeTag p.auto_classified_type] }

/-- Commit payload of the sequential hook (src/unnamed/part_002, lines 283-287):
`tags: [auto_classified_type]` only. -/
def seqApproveRequest (e : MigrationNoteState) (p : PreviewResponse) : ApproveRequest :=
  { noteId := e.note.note_id
    newFields := p.new_fields
    tags := [cardTypeTag p.auto_classified_type] }

/-- Outcome of the awaited `approveMigration` call. -/
inductive CommitOutcome where
  | success
  | failure (msg : String)
deriving DecidableEq, Repr

/-- `approveNote` (useMigration.ts, lines 370-413), run to completion with the
commit outcome supplied; also returns the commit request it issued, if any.
Guard: `if (!noteState || !noteState.preview || noteState.status === 'approving') return`. -/
def approveNote (source : String) (i : Nat) (outcome : CommitOutcome) (s : NotesState) :
    NotesState × Option ApproveRequest :=
  match s[i]? with
  | none => (s, none)
  | some e =>
    match e.preview with
    | none => (s, none)
    | some p =>
      if e.status = Status.approving then (s, none)
      else
        match outcome with
        | CommitOutcome.success =>
            (modifyIdx (fun x => { x with status := Status.approved }) i
              (modifyIdx (fun x => { x with status := Status.approving }) i s),
             some (approveRequest source e p))
        | CommitOutcome.failure msg =>
            (modifyIdx (fun x => { x with status := Status.error, error := some msg }) i
              (modifyIdx (fun x => { x with status := Status.approving }) i s),
             some (approveRequest source e p))

/-- First phase of `approveNote` (useMigration.ts, lines 372-379): the guard
read from `notesRef.current` followed by the `setNotes` that marks the entry
`approving`.  When the guard fails the function returns before any update. -/
def approveStart (i : Nat) (s : NotesState) : NotesState :=
  match s[i]? with
  | none => s
  | some e =>
    match e.preview with
    | none => s
    | some _ =>
      if e.status = Status.approving then s
      else modifyIdx (fun x => { x with status := Status.approving }) i s

/-- Second phase of `approveNote`: the `setNotes` run when the awaited commit
resolves.  The success handler (lines 388-392) and the catch handler (lines
402-411) both spread the entry *current at resolution time*, with no further
guard. -/
def approveFinish (i : Nat) (outcome : CommitOutcome) (s : NotesState) : NotesState :=
  match outcome with
  | CommitOutcome.success => modifyIdx (fun x => { x with status := Status.approved }) i s
  | CommitOutcome.failure msg =>
      modifyIdx (fun x => { x with status := Status.error, error := some msg }) i s

/-- `skipNote` (useMigration.ts, lines 416-431): sets `skipped` unconditionally,
leaving every other field (including `preview`) untouched. -/
def skipNote (i : Nat) (s : NotesState) : NotesState :=
  modifyIdx (fun e => { e with status := Status.skipped }) i s

/-- `const BATCH_SIZE = 10` (useMigration.ts, line 16). -/
def BATCH_SIZE : Nat := 10

/-- Fuel-driven chunking helper; correct whenever `fuel` is at least the
length of the list and the chunk size is positive. -/
def chunksOfAux {α : Type} (n : Nat) : Nat → List α → List (List α)
  | _, [] => []
  | 0, _ :: _ => []
  | fuel + 1, x :: xs => (x :: xs).take n :: chunksOfAux n fuel ((x :: xs).drop n)

/-- `pendingIndices.slice(batchStart, batchStart + BATCH_SIZE)` over all batch
starts: the pending index list cut into chunks of size `n`. -/
def chunksOf {α : Type} (n : Nat) (l : List α) : List (List α) :=
  chunksOfAux n l.length l

/-- The scan of useMigration.ts, lines 184-194: indices whose entry satisfies
`status === 'pending' && preview === null`. -/
def pendingIndices (s : NotesState) : List Nat :=
  (List.range s.length).filter (fun i =>
    match s[i]? with
    | some e => decide (e.status = Status.pending) && e.preview.isNone
    | none => false)

/-- Apply `modifyIdx f` at every index of a list, left to right (the shape of
the `for (const idx of batchIndices)` loops inside `setNotes` updaters). -/
def foldModify (f : MigrationNoteState → MigrationNoteState) (idxs : List Nat) (s : NotesState) :
    NotesState :=
  idxs.foldl (fun acc i => modifyIdx f i acc) s

/-- Marking pass of useMigration.ts, lines 204-212: every batch index whose
entry is still `pending` becomes `previewing`. -/
def markPend (e : MigrationNoteState) : MigrationNoteState :=
  if e.status = Status.pending then { e with status := Status.previewing } else e

/-- Set every `pending` entry of the batch to `previewing`. -/
def markPreviewing (batch : List Nat) (s : NotesState) : NotesState :=
  foldModify markPend batch s

/-- One item of the `generateBatchMigrationPreview` request
(useMigration.ts, lines 216-226). -/
structure BatchPreviewItem where
  noteId : Nat
  rawInput : String
  extraNotes : Option String
  preserveSound : Option String
  preserveSoundExample : Option String
deriving DecidableEq, Repr

/-- Build one batch request item from an entry (useMigration.ts, lines 217-225). -/
def batchItemOf (e : MigrationNoteState) : BatchPreviewItem :=
  { noteId := e.note.note_id
    rawInput := fieldOrEmpty e.note.old_fields "Kana"
    extraNotes := fieldOrNone e.note.old_fields "Extra"
    preserveSound := strOrNone e.note.sound
    preserveSoundExample := strOrNone e.note.sound_example }

/-- The full batch request: one item per batch index (built from the state
after the marking pass; `notesRef.current` at line 215). -/
def buildBatchItems (batch : List Nat) (s : NotesState) : List BatchPreviewItem :=
  batch.filterMap (fun idx => (s[idx]?).map batchItemOf)

/-- A batch request item viewed as a single-preview request: a batch item
carries no fixed translation keys, so they travel as `undefined`. -/
def requestOfBatchItem (b : BatchPreviewItem) : PreviewRequest :=
  { noteId := b.noteId
    rawInput := b.rawInput
    fixedEnglish := none
    fixedDutch := none
    extraNotes := b.extraNotes
    preserveSound := b.preserveSound
    preserveSoundExample := b.preserveSoundExample }

/-- One item of the batch response (`response.results`), as consumed at
useMigration.ts, lines 238-262. -/
structure BatchResultItem where
  note_id : Nat
  success : Bool
  new_fields : Option Fields
  auto_classified_type : Option CardType
  error : Option String
deriving DecidableEq, Repr

/-- Per-item update (useMigration.ts, lines 245-261).  The source tests
`result.success && result.new_fields` and then dereferences
`result.auto_classified_type!` (non-null assertion); we require that field to
be present on the success path. -/
def resultUpdate (r : BatchResultItem) (e : MigrationNoteState) : MigrationNoteState :=
  if r.success then
    match r.new_fields, r.auto_classified_type with
    | some nf, some ct =>
        { e with
          preview := some { note_id := r.note_id, new_fields := nf, auto_classified_type := ct }
          status := Status.ready }
    | _, _ => { e with status := Status.error, error := some (r.error.getD "Preview generation failed") }
  else { e with status := Status.error, error := some (r.error.getD "Preview generation failed") }

/-- The index a result is delivered to (useMigration.ts, lines 240-242):
the first batch index whose entry carries the result's `note_id`. -/
def findTarget (batch : List Nat) (r : BatchResultItem) (s : NotesState) : Option Nat :=
  batch.find? (fun idx =>
    match s[idx]? with
    | some e => decide (e.note.note_id = r.note_id)
    | none => false)

/-- Deliver one batch result by identifier; a result whose id matches no batch
entry is dropped (`noteIdx !== undefined` at line 244). -/
def applyBatchResult (batch : List Nat) (r : BatchResultItem) (s : NotesState) : NotesState :=
  match findTarget batch r s with
  | none => s
  | some j => modifyIdx (resultUpdate r) j s

/-- Deliver a whole batch response, result by result (the `for (const result
of response.results)` loop inside one `setNotes` updater). -/
def applyBatchResults (batch : List Nat) (results : List BatchResultItem) (s : NotesState) :
    NotesState :=
  results.foldl (fun acc r => applyBatchResult batch r acc) s

/-- Whole-batch transport failure (useMigration.ts, lines 268-281): every
entry of the batch is set to `error` with the message of the thrown error. -/
def failBatch (batch : List Nat) (msg : String) (s : NotesState) : NotesState :=
  foldModify (fun e => { e with status := Status.error, error := some msg }) batch s

/-- Outcome of one awaited `generateBatchMigrationPreview` call. -/
inductive BatchOutcome where
  | success (results : List BatchResultItem)
  | failure (msg : String)

/-- The batch loop of `generateAllPreviews` (useMigration.ts, lines 197-282).
`outs k` is the outcome of the `k`-th issued batched call; `ab c` is the value
of `abortGenerationRef.current` at the `c`-th abort check of the run (checks
are numbered in execution order: one at each loop top, and one more after a
batched call returns without throwing; a call that throws is caught before
that check runs). -/
def runBatchesFrom (outs : Nat → BatchOutcome) (ab : Nat → Bool) :
    List (List Nat) → Nat → Nat → NotesState → NotesState
  | [], _, _, s => s
  | batch :: rest, k, c, s =>
    if ab c then s
    else
      match outs k with
      | BatchOutcome.failure msg =>
          runBatchesFrom outs ab rest (k + 1) (c + 1) (failBatch batch msg (markPreviewing batch s))
      | BatchOutcome.success results =>
          if ab (c + 1) then markPreviewing batch s
          else
            runBatchesFrom outs ab rest (k + 1) (c + 2)
              (applyBatchResults batch results (markPreviewing batch s))

/-- `generateAllPreviews` of the batched hook (useMigration.ts, lines 181-285):
scan for pending-and-previewless entries, then process them in batches of
`BATCH_SIZE`. -/
def generateAllPreviews (outs : Nat → BatchOutcome) (ab : Nat → Bool) (s : NotesState) : NotesState :=
  runBatchesFrom outs ab (chunksOf BATCH_SIZE (pendingIndices s)) 0 0 s

/-- The sequential generation loop of src/unnamed/part_002, lines 157-219.
`snap` is the `notes` array captured by the effect closure (the guards and the
request are read from it); `outcome id` is the result of
`generateMigrationPreview` for the note with identifier `id`; `ab` is the
abort flag, checked at each loop top and again after each awaited call. -/
def seqRunFrom (snap : NotesState) (outcome : Nat → Option PreviewResponse) (ab : Nat → Bool) :
    List Nat → Nat → NotesState → NotesState
  | [], _, s => s
  | i :: rest, c, s =>
    if ab c then s
    else
      match snap[i]? with
      | none => seqRunFrom snap outcome ab rest (c + 1) s
      | some e0 =>
        if e0.status = Status.ready ∨ e0.status = Status.approved ∨
            e0.status = Status.skipped ∨ e0.preview ≠ none then
          seqRunFrom snap outcome ab rest (c + 1) s
        else
          if ab (c + 1) then
            modifyIdx markPend i s
          else
            seqRunFrom snap outcome ab rest (c + 2)
              (regenFinish i (outcome e0.note.note_id) (modifyIdx markPend i s))

/-- `generateAllPreviews` of the sequential hook (src/unnamed/part_002,
lines 160-216): iterate over all indices of the captured snapshot. -/
def seqGenerateAllPreviews (outcome : Nat → Option PreviewResponse) (ab : Nat → Bool)
    (s : NotesState) : NotesState :=
  seqRunFrom s outcome ab (List.range s.length) 0 s

/-- A generation outcome written back as a batch result item would report it:
success carries the new fields and classification, failure carries no message
(the backend item-level message is left unset, so the consumer falls back to
its default). -/
def resultOfOutcome (outcome : Nat → Option PreviewResponse) (id : Nat) : BatchResultItem :=
  match outcome id with
  | some p =>
      { note_id := id, success := true, new_fields := some p.new_fields
        auto_classified_type := some p.auto_classified_type, error := none }
  | none =>
      { note_id := id, success := false, new_fields := none
        auto_classified_type := none, error := none }

/-- Identifiers of the entries at the given indices. -/
def idsOf (s : NotesState) (idxs : List Nat) : List Nat :=
  idxs.filterMap (fun i => (s[i]?).map (fun e => e.note.note_id))

/-- Batch-call oracle agreeing item-by-item with a per-note outcome oracle:
the `k`-th batched call succeeds and returns one result per item of the `k`-th
batch of the initial pending scan of `s`. -/
def batchOutcomesFor (outcome : Nat → Option PreviewResponse) (s : NotesState) :
    Nat → BatchOutcome :=
  fun k =>
    BatchOutcome.success
      ((idsOf s ((chunksOf BATCH_SIZE (pendingIndices s)).getD k [])).map (resultOfOutcome outcome))

/-- The entry a freshly loaded note resolves to after its generation call
comes back: `ready` with the proposal on success, `error` with the default
message on failure. -/
def resolveEntry (out : Option PreviewResponse) (e : MigrationNoteState) : MigrationNoteState :=
  match out with
  | some p =>
      { e with
        preview := some
          { note_id := e.note.note_id, new_fields := p.new_fields
            auto_classified_type := p.auto_classified_type }
        status := Status.ready }
  | none => { e with status := Status.error, error := some "Preview generation failed" }

/-- Final state of a complete, unaborted generation pass over freshly loaded
notes: every entry resolved by its own outcome. -/
def expectedFinal (ns : List MigrationNote) (outcome : Nat → Option PreviewResponse) : NotesState :=
  ns.map (fun n => resolveEntry (outcome n.note_id) (initEntry n))

/-- States reachable by the session's operations, one step per `setNotes`
updater so that reviewer actions interleave with every awaited call: the
initial load, the scheduler phases (marking a batch, delivering its response,
failing it), the two phases of `regeneratePreview`, the synchronous reviewer
operations, and the two phases of `approveNote` — the guarded `approving`
mark, and the unguarded resolution handler that runs whenever the awaited
commit settles.  Resolution steps fire freely, so the relation
over-approximates the program's reachable states (every real interleaving of
the updaters, including a regenerate issued while a commit is in flight, is
included); an invariant proved over it therefore holds for the program. -/
inductive Reachable : NotesState → Prop where
  | load (ns : List MigrationNote) : Reachable (loadNotes ns)
  | mark (batch : List Nat) (s : NotesState) : Reachable s → Reachable (markPreviewing batch s)
  | applyBatch (batch : List Nat) (results : List BatchResultItem) (s : NotesState) :
      Reachable s → Reachable (applyBatchResults batch results s)
  | failB (batch : List Nat) (msg : String) (s : NotesState) :
      Reachable s → Reachable (failBatch batch msg s)
  | regenS (i : Nat) (s : NotesState) : Reachable s → Reachable (regenStart i s)
  | regenF (i : Nat) (out : Option PreviewResponse) (s : NotesState) :
      Reachable s → Reachable (regenFinish i out s)
  | updateF (i : Nat) (f v : String) (s : NotesState) :
      Reachable s → Reachable (updatePreviewField i f v s)
  | updateT (i : Nat) (ct : CardType) (s : NotesState) :
      Reachable s → Reachable (updateCardType i ct s)
  | toggle (i : Nat) (s : NotesState) : Reachable s → Reachable (toggleCore i s)
  | approveS (i : Nat) (s : NotesState) : Reachable s → Reachable (approveStart i s)
  | approveF (i : Nat) (out : CommitOutcome) (s : NotesState) :
      Reachable s → Reachable (approveFinish i out s)
  | skip (i : Nat) (s : NotesState) : Reachable s → Reachable (skipNote i s)

/-- Per-entry part of the proposal/status correspondence that the code does
maintain: `ready` and `approving` entries always carry a proposal, and
`pending` and `previewing` entries never do.  `approved` is deliberately not
in the first set: a regenerate issued while a commit is in flight clears the
proposal before the commit's success handler sets `approved`. -/
def entryInv (e : MigrationNoteState) : Prop :=
  ((e.status = Status.ready ∨ e.status = Status.approving) → e.preview ≠ none) ∧
  ((e.status = Status.pending ∨ e.status = Status.previewing) → e.preview = none)

/-- The invariant, per index. -/
def ProposalInv (s : NotesState) : Prop :=
  ∀ (j : Nat) (e : MigrationNoteState), s[j]? = some e → entryInv e

/-- The state's entries carry exactly the loaded notes, index by index (no
operation ever rewrites the immutable `note` component). -/
def NotesMatch (ns : List MigrationNote) (s : NotesState) : Prop :=
  ∀ (i : Nat) (n : MigrationNote), ns[i]? = some n → ∃ e, s[i]? = some e ∧ e.note = n

/-- Concrete legacy note used by witnesses and counterexamples. -/
def exNote1 : MigrationNote :=
  { note_id := 1
    old_fields := [("Kana", "neko"), ("English", "cat"), ("Nederlands", "kat")]
    sound := "", sound_example := "" }

/-- Second concrete legacy note. -/
def exNote2 : MigrationNote :=
  { note_id := 2, old_fields := [("Kana", "inu")], sound := "abc", sound_example := "" }

/-- Concrete generated proposal for `exNote1`. -/
def exPreview1 : PreviewResponse :=
  { note_id := 1, new_fields := [("Hiragana", "neko")], auto_classified_type := CardType.word }

/-- Concrete successful batch result for `exNote1`. -/
def exResult1 : BatchResultItem :=
  { note_id := 1, success := true, new_fields := some [("Hiragana", "neko")]
    auto_classified_type := some CardType.word, error := none }

/-- Entry for `exNote1` in `ready` state with its proposal. -/
def exReadyEntry : MigrationNoteState :=
  { note := exNote1, preview := some exPreview1, status := Status.ready
    error := none, isCore := true }

/-- Entry for `exNote1` in terminal `approved` state (proposal retained). -/
def exApprovedEntry : MigrationNoteState :=
  { note := exNote1, preview := some exPreview1, status := Status.approved
    error := none, isCore := true }

/-- Entry for `exNote1` in terminal `skipped` state with a retained proposal. -/
def exSkippedEntry : MigrationNoteState :=
  { note := exNote1, preview := some exPreview1, status := Status.skipped
    error := none, isCore := true }

/-- Entry for `exNote1` skipped while its generation was still in flight. -/
def exSkippedPendingEntry : MigrationNoteState :=
  { note := exNote1, preview := none, status := Status.skipped, error := none, isCore := true }

/-- Entry for `exNote1` with a generation in flight. -/
def exPreviewingEntry : MigrationNoteState :=
  { note := exNote1, preview := none, status := Status.previewing, error := none, isCore := true }

/-! Helper lemmas about index-wise updates. -/

theorem modifyIdx_get?_ne {α : Type} (f : α → α) :
    ∀ (i j : Nat) (l : List α), j ≠ i → (modifyIdx f i l)[j]? = l[j]? := by
  intro i j l
  induction l generalizing i j with
  | nil => intro _; simp [modifyIdx]
  | cons x xs ih =>
    intro h
    cases i with
    | zero =>
      cases j with
      | zero => exact absurd rfl h
      | succ j => simp [modifyIdx]
    | succ i =>
      cases j with
      | zero => simp [modifyIdx]
      | succ j =>
        simp only [modifyIdx, List.getElem?_cons_succ]
        exact ih i j (by omega)

theorem modifyIdx_get?_eq {α : Type} (f : α → α) :
    ∀ (i : Nat) (l : List α), (modifyIdx f i l)[i]? = (l[i]?).map f := by
  intro i l
  induction l generalizing i with
  | nil => simp [modifyIdx]
  | cons x xs ih =>
    cases i with
    | zero => simp [modifyIdx]
    | succ i => simpa [modifyIdx] using ih i

theorem foldModify_cons (f : MigrationNoteState → MigrationNoteState) (i : Nat) (idxs : List Nat)
    (s : NotesState) : foldModify f (i :: idxs) s = foldModify f idxs (modifyIdx f i s) := rfl

theorem foldModify_get?_notMem (f : MigrationNoteState → MigrationNoteState) :
    ∀ (idxs : List Nat) (s : NotesState) (j : Nat), j ∉ idxs →
      (foldModify f idxs s)[j]? = s[j]? := by
  intro idxs
  induction idxs with
  | nil => intro s j _; rfl
  | cons i rest ih =>
    intro s j hj
    have hji : j ≠ i := fun h => hj (by simp [h])
    have hjr : j ∉ rest := fun h => hj (List.mem_cons_of_mem _ h)
    rw [foldModify_cons, ih _ _ hjr, modifyIdx_get?_ne _ _ _ _ hji]

theorem foldModify_get?_mem (f : MigrationNoteState → MigrationNoteState)
    (hid : ∀ e, f (f e) = f e) :
    ∀ (idxs : List Nat) (s : NotesState) (j : Nat), j ∈ idxs →
      (foldModify f idxs s)[j]? = (s[j]?).map f := by
  intro idxs
  induction idxs with
  | nil => intro s j hj; simp at hj
  | cons i rest ih =>
    intro s j hj
    rw [foldModify_cons]
    by_cases hjr : j ∈ rest
    · rw [ih _ _ hjr]
      by_cases hji : j = i
      · subst hji
        rw [modifyIdx_get?_eq]
        cases hs : s[j]? <;> simp [hs, hid]
      · rw [modifyIdx_get?_ne _ _ _ _ hji]
    · have hji : j = i := by
        rcases List.mem_cons.mp hj with h | h
        · exact h
        · exact absurd h hjr
      subst hji
      rw [foldModify_get?_notMem _ _ _ _ hjr, modifyIdx_get?_eq]

theorem markPend_idem (e : MigrationNoteState) : markPend (markPend e) = markPend e := by
  by_cases h : e.status = Status.pending <;> simp [markPend, h]

theorem errSet_idem (msg : String) (e : MigrationNoteState) :
    ({ ({ e with status := Status.error, error := some msg } : MigrationNoteState) with
        status := Status.error, error := some msg } : MigrationNoteState) =
      { e with status := Status.error, error := some msg } := rfl

theorem markPreviewing_get?_mem (batch : List Nat) (s : NotesState) (j : Nat) (hj : j ∈ batch) :
    (markPreviewing batch s)[j]? = (s[j]?).map markPend :=
  foldModify_get?_mem markPend markPend_idem batch s j hj

theorem markPreviewing_get?_notMem (batch : List Nat) (s : NotesState) (j : Nat)
    (hj : j ∉ batch) : (markPreviewing batch s)[j]? = s[j]? :=
  foldModify_get?_notMem markPend batch s j hj

theorem failBatch_get?_mem (batch : List Nat) (msg : String) (s : NotesState) (j : Nat)
    (hj : j ∈ batch) :
    (failBatch batch msg s)[j]? =
      (s[j]?).map (fun e => { e with status := Status.error, error := some msg }) :=
  foldModify_get?_mem _ (errSet_idem msg) batch s j hj

theorem failBatch_get?_notMem (batch : List Nat) (msg : String) (s : NotesState) (j : Nat)
    (hj : j ∉ batch) : (failBatch batch msg s)[j]? = s[j]? :=
  foldModify_get?_notMem _ batch s j hj

theorem applyBatchResult_get?_cases (batch : List Nat) (r : BatchResultItem) (s : NotesState)
    (j : Nat) :
    (applyBatchResult batch r s)[j]? = s[j]? ∨
    (applyBatchResult batch r s)[j]? = (s[j]?).map (resultUpdate r) := by
  unfold applyBatchResult
  cases hf : findTarget batch r s with
  | none => exact Or.inl rfl
  | some t =>
    by_cases hj : j = t
    · subst hj; exact Or.inr (modifyIdx_get?_eq _ _ _)
    · exact Or.inl (modifyIdx_get?_ne _ _ _ _ hj)

/-! Claim C1. -/

/-- Claim C1 counterexample: an entry whose generation is in flight
(`previewing` after the marking pass) is skipped by the reviewer; when the
batch response then arrives, the result applier overwrites the entry by
identifier without any status guard, flipping it from `skipped` back to
`ready` and installing the proposal. -/
theorem C1_counterexample :
    ((skipNote 0 (markPreviewing [0] (loadNotes [exNote1])))[0]? =
      some { note := exNote1, preview := none, status := Status.skipped
             error := none, isCore := true }) ∧
    ((applyBatchResults [0] [exResult1] (skipNote 0 (markPreviewing [0] (loadNotes [exNote1]))))[0]? =
      some { note := exNote1, preview := some exPreview1, status := Status.ready
             error := none, isCore := true }) := by
  decide

/-- Claim C1 (amended): a generation result that arrives after an entry was
skipped is not dropped.  Both delivery paths overwrite the skipped entry: the
batch applier matches it by identifier and sets status `ready` with the
proposal, and the single-entry finish phase does the same by index. -/
theorem C1_amended (batch : List Nat) (r : BatchResultItem) (s : NotesState)
    (i : Nat) (e : MigrationNoteState) (p : PreviewResponse) (nf : Fields) (ct : CardType)
    (he : s[i]? = some e) (hsk : e.status = Status.skipped)
    (hf : findTarget batch r s = some i)
    (hs : r.success = true) (hnf : r.new_fields = some nf)
    (hct : r.auto_classified_type = some ct) :
    ((applyBatchResult batch r s)[i]? =
      some { e with
        preview := some { note_id := r.note_id, new_fields := nf, auto_classified_type := ct }
        status := Status.ready }) ∧
    ((regenFinish i (some p) s)[i]? =
      some { e with preview := some p, status := Status.ready }) := by
  constructor
  · simp [applyBatchResult, hf, modifyIdx_get?_eq, he, resultUpdate, hs, hnf, hct]
  · simp [regenFinish, modifyIdx_get?_eq, he]

/-- Witness for `C1_amended` at a concrete skipped entry. -/
theorem C1_amended_witness :
    (([exSkippedPendingEntry] : NotesState)[0]? = some exSkippedPendingEntry ∧
      exSkippedPendingEntry.status = Status.skipped ∧
      findTarget [0] exResult1 [exSkippedPendingEntry] = some 0 ∧
      exResult1.success = true ∧
      exResult1.new_fields = some [("Hiragana", "neko")] ∧
      exResult1.auto_classified_type = some CardType.word) ∧
    (((applyBatchResult [0] exResult1 [exSkippedPendingEntry])[0]? =
      some { exSkippedPendingEntry with
        preview := some { note_id := exResult1.note_id, new_fields := [("Hiragana", "neko")]
                          auto_classified_type := CardType.word }
        status := Status.ready }) ∧
    ((regenFinish 0 (some exPreview1) [exSkippedPendingEntry])[0]? =
      some { exSkippedPendingEntry with preview := some exPreview1, status := Status.ready })) :=
  ⟨by decide,
    C1_amended [0] exResult1 [exSkippedPendingEntry] 0 exSkippedPendingEntry exPreview1
      [("Hiragana", "neko")] CardType.word (by decide) (by decide) (by decide) (by decide)
      (by decide) (by decide)⟩

/-! Claim C2. -/

/-- Claim C2 counterexample: the terminal statuses are not protected.  On an
`approved` entry (which retains its proposal) `updatePreviewField` still edits
a field and `updateCardType` still reclassifies, and on a `skipped` entry with
a retained proposal `regeneratePreview` still clears the proposal and runs a
regeneration. -/
theorem C2_counterexample :
    (updatePreviewField 0 "English" "x" [exApprovedEntry] ≠ [exApprovedEntry]) ∧
    (updateCardType 0 CardType.phrase [exApprovedEntry] ≠ [exApprovedEntry]) ∧
    ((regeneratePreview 0 (some exPreview1) [exSkippedEntry]).1 ≠ [exSkippedEntry]) := by
  decide

/-- Claim C2 (amended): the reviewer operations guard on proposal presence,
not on terminal status.  `updatePreviewField` and `updateCardType` leave an
entry unchanged exactly when its proposal is absent (so a skipped-before-
generation entry is safe), while a terminal entry that retains a proposal can
still be edited; `regeneratePreview` runs for any existing entry regardless of
status, issuing a generation request. -/
theorem C2_amended (i1 i2 : Nat) (f v : String) (ct : CardType)
    (gout : Option PreviewResponse) (s1 s2 : NotesState) (e1 e2 : MigrationNoteState)
    (h1 : s1[i1]? = some e1) (h1p : e1.preview = none)
    (h2 : s2[i2]? = some e2) :
    (updatePreviewField i1 f v s1 = s1) ∧
    (updateCardType i1 ct s1 = s1) ∧
    ((regeneratePreview i2 gout s2).2 = some (generateSinglePreviewRequest e2)) := by
  refine ⟨?_, ?_, ?_⟩
  · simp [updatePreviewField, h1, h1p]
  · simp [updateCardType, h1, h1p]
  · simp [regeneratePreview, h2]

/-- Witness for `C2_amended`: a pending entry with no proposal and a skipped
entry with one. -/
theorem C2_amended_witness :
    (([initEntry exNote1] : NotesState)[0]? = some (initEntry exNote1) ∧
      (initEntry exNote1).preview = none ∧
      ([exSkippedEntry] : NotesState)[0]? = some exSkippedEntry) ∧
    ((updatePreviewField 0 "English" "x" [initEntry exNote1] = [initEntry exNote1]) ∧
      (updateCardType 0 CardType.phrase [initEntry exNote1] = [initEntry exNote1]) ∧
      ((regeneratePreview 0 none [exSkippedEntry]).2 =
        some (generateSinglePreviewRequest exSkippedEntry))) :=
  ⟨by decide,
    C2_amended 0 0 "English" "x" CardType.phrase none [initEntry exNote1] [exSkippedEntry]
      (initEntry exNote1) exSkippedEntry (by decide) (by decide) (by decide)⟩

/-! Claim C3. -/

/-- Claim C3 counterexample: `approveNote` guards on proposal presence and on
not being mid-commit, not on `ready`.  Invoked on an already `approved` entry
(whose proposal is retained) it issues the commit call again, so an accepted
record can be committed more than once. -/
theorem C3_counterexample :
    (exApprovedEntry.status ≠ Status.ready) ∧
    ((approveNote "japanese_class" 0 CommitOutcome.success [exApprovedEntry]).2 =
      some (approveRequest "japanese_class" exApprovedEntry exPreview1)) := by
  decide

/-- Claim C3 (amended): `approveNote` issues the commit call exactly when the
entry exists, carries a proposal, and is not currently `approving` — this
includes `error` entries (retry) and terminal entries with a retained
proposal.  With no proposal, or while a commit is in flight, it issues no
commit and leaves the state unchanged. -/
theorem C3_amended (source : String) (i1 i2 i3 : Nat) (out : CommitOutcome)
    (s1 s2 s3 : NotesState) (e1 e2 e3 : MigrationNoteState) (p : PreviewResponse)
    (h1 : s1[i1]? = some e1) (h1p : e1.preview = some p)
    (h1a : e1.status ≠ Status.approving)
    (h2 : s2[i2]? = some e2) (h2p : e2.preview = none)
    (h3 : s3[i3]? = some e3) (h3a : e3.status = Status.approving) :
    ((approveNote source i1 out s1).2 = some (approveRequest source e1 p)) ∧
    ((approveNote source i2 out s2).2 = none ∧ (approveNote source i2 out s2).1 = s2) ∧
    ((approveNote source i3 out s3).2 = none ∧ (approveNote source i3 out s3).1 = s3) := by
  refine ⟨?_, ?_, ?_⟩
  · cases out <;> simp [approveNote, h1, h1p, h1a]
  · simp [approveNote, h2, h2p]
  · cases hp : e3.preview <;> simp [approveNote, h3, h3a, hp]

/-- Witness for `C3_amended`: an `error` entry with a retained proposal (commit
retried), a pending entry without proposal, and an `approving` entry. -/
theorem C3_amended_witness :
    ((([{ exReadyEntry with status := Status.error }] : NotesState)[0]? =
        some { exReadyEntry with status := Status.error } ∧
      ({ exReadyEntry with status := Status.error } : MigrationNoteState).preview =
        some exPreview1 ∧
      ({ exReadyEntry with status := Status.error } : MigrationNoteState).status ≠
        Status.approving) ∧
      (([initEntry exNote1] : NotesState)[0]? = some (initEntry exNote1) ∧
        (initEntry exNote1).preview = none) ∧
      (([{ exReadyEntry with status := Status.approving }] : NotesState)[0]? =
        some { exReadyEntry with status := Status.approving } ∧
      ({ exReadyEntry with status := Status.approving } : MigrationNoteState).status =
        Status.approving)) ∧
    (((approveNote "japanese_class" 0 CommitOutcome.success
        [{ exReadyEntry with status := Status.error }]).2 =
      some (approveRequest "japanese_class" { exReadyEntry with status := Status.error }
        exPreview1)) ∧
    ((approveNote "japanese_class" 0 CommitOutcome.success [initEntry exNote1]).2 = none ∧
      (approveNote "japanese_class" 0 CommitOutcome.success [initEntry exNote1]).1 =
        [initEntry exNote1]) ∧
    ((approveNote "japanese_class" 0 CommitOutcome.success
        [{ exReadyEntry with status := Status.approving }]).2 = none ∧
      (approveNote "japanese_class" 0 CommitOutcome.success
        [{ exReadyEntry with status := Status.approving }]).1 =
        [{ exReadyEntry with status := Status.approving }])) :=
  ⟨by decide,
    C3_amended "japanese_class" 0 0 0 CommitOutcome.success
      [{ exReadyEntry with status := Status.error }] [initEntry exNote1]
      [{ exReadyEntry with status := Status.approving }]
      { exReadyEntry with status := Status.error } (initEntry exNote1)
      { exReadyEntry with status := Status.approving } exPreview1
      (by decide) (by decide) (by decide) (by decide) (by decide) (by decide) (by decide)⟩

/-! Claim C5. -/

/-- Claim C5 counterexample: there is no status-guard serialization.  A
`regeneratePreview` call that observes an entry already in `previewing` is not
a no-op: it issues another generation request and applies its outcome. -/
theorem C5_counterexample :
    (exPreviewingEntry.status = Status.previewing) ∧
    ((regeneratePreview 0 (some exPreview1) [exPreviewingEntry]).2 =
      some (generateSinglePreviewRequest exPreviewingEntry)) ∧
    ((regeneratePreview 0 (some exPreview1) [exPreviewingEntry]).1 ≠ [exPreviewingEntry]) := by
  decide

/-- Claim C5 (amended): `regeneratePreview` runs for any existing entry with
no status guard at all (terminal and in-flight statuses included): it issues
one generation request built from the entry, clears the proposal and error
while setting `previewing`, and ends `ready` with the proposal on success or
`error` with the fixed message on failure.  Concurrent calls for the same
index are not serialized — a call observing `previewing` repeats all of this. -/
theorem C5_amended (i : Nat) (s : NotesState) (e : MigrationNoteState) (p : PreviewResponse)
    (gout : Option PreviewResponse) (he : s[i]? = some e) :
    ((regeneratePreview i gout s).2 = some (generateSinglePreviewRequest e)) ∧
    ((regeneratePreview i (some p) s).1[i]? =
      some { e with preview := some p, status := Status.ready, error := none }) ∧
    ((regeneratePreview i none s).1[i]? =
      some { e with preview := none, status := Status.error
                    error := some "Preview generation failed" }) := by
  refine ⟨?_, ?_, ?_⟩
  · simp [regeneratePreview, he]
  · simp [regeneratePreview, regenFinish, regenStart, he, modifyIdx_get?_eq]
  · simp [regeneratePreview, regenFinish, regenStart, he, modifyIdx_get?_eq]

/-- Witness for `C5_amended` at a concrete `previewing` entry. -/
theorem C5_amended_witness :
    (([exPreviewingEntry] : NotesState)[0]? = some exPreviewingEntry) ∧
    (((regeneratePreview 0 (some exPreview1) [exPreviewingEntry]).2 =
        some (generateSinglePreviewRequest exPreviewingEntry)) ∧
      ((regeneratePreview 0 (some exPreview1) [exPreviewingEntry]).1[0]? =
        some { exPreviewingEntry with preview := some exPreview1, status := Status.ready
                                      error := none }) ∧
      ((regeneratePreview 0 none [exPreviewingEntry]).1[0]? =
        some { exPreviewingEntry with preview := none, status := Status.error
                                      error := some "Preview generation failed" })) :=
  ⟨by decide,
    C5_amended 0 [exPreviewingEntry] exPreviewingEntry exPreview1 (some exPreview1) (by decide)⟩

/-! Claim C6. -/

/-- Claim C6 (confirmed): when the commit issued by `approveNote` on a `ready`
entry fails, the entry becomes `error` with the failure message while its
proposal is left untouched, and a second `approveNote` call on the resulting
state issues the very same commit request again without any regeneration. -/
theorem C6_commit_failure (source : String) (i : Nat) (s : NotesState)
    (e : MigrationNoteState) (p : PreviewResponse) (msg : String) (out2 : CommitOutcome)
    (he : s[i]? = some e) (hst : e.status = Status.ready) (hp : e.preview = some p) :
    ((approveNote source i (CommitOutcome.failure msg) s).1[i]? =
      some { e with status := Status.error, error := some msg }) ∧
    ((approveNote source i (CommitOutcome.failure msg) s).2 =
      some (approveRequest source e p)) ∧
    ((approveNote source i out2 (approveNote source i (CommitOutcome.failure msg) s).1).2 =
      some (approveRequest source e p)) := by
  have hna : e.status ≠ Status.approving := by rw [hst]; intro hc; cases hc
  have hfst : (approveNote source i (CommitOutcome.failure msg) s).1[i]? =
      some { e with status := Status.error, error := some msg } := by
    simp [approveNote, he, hp, hna, modifyIdx_get?_eq]
  refine ⟨hfst, ?_, ?_⟩
  · simp [approveNote, he, hp, hna]
  · generalize hgen : (approveNote source i (CommitOutcome.failure msg) s).1 = s2 at hfst
    cases out2 <;> simp [approveNote, hfst, hp, approveRequest]

/-- Witness for `C6_commit_failure` at a concrete ready entry. -/
theorem C6_witness :
    (([exReadyEntry] : NotesState)[0]? = some exReadyEntry ∧
      exReadyEntry.status = Status.ready ∧ exReadyEntry.preview = some exPreview1) ∧
    (((approveNote "japanese_class" 0 (CommitOutcome.failure "boom") [exReadyEntry]).1[0]? =
        some { exReadyEntry with status := Status.error, error := some "boom" }) ∧
      ((approveNote "japanese_class" 0 (CommitOutcome.failure "boom") [exReadyEntry]).2 =
        some (approveRequest "japanese_class" exReadyEntry exPreview1)) ∧
      ((approveNote "japanese_class" 0 CommitOutcome.success
          (approveNote "japanese_class" 0 (CommitOutcome.failure "boom") [exReadyEntry]).1).2 =
        some (approveRequest "japanese_class" exReadyEntry exPreview1))) :=
  ⟨by decide,
    C6_commit_failure "japanese_class" 0 [exReadyEntry] exReadyEntry exPreview1 "boom"
      CommitOutcome.success (by decide) (by decide) (by decide)⟩

/-! Claim C8. -/

/-- Claim C8 counterexample: results received from an in-flight batch are not
applied once the abort signal is observed.  With an abort raised during the
only batch's remote call (`ab c = true` for every check from the post-call one
on), the scheduler breaks before the result-application update: the entry
stays `previewing` with no proposal, so the received result was discarded. -/
theorem C8_counterexample :
    generateAllPreviews (fun _ => BatchOutcome.success [exResult1])
        (fun c => decide (1 ≤ c)) (loadNotes [exNote1]) =
      [{ note := exNote1, preview := none, status := Status.previewing
         error := none, isCore := true }] := by
  decide

/-- Claim C8 (amended): the abort signal is checked before starting each batch
and again after a batch call returns; once observed, no further batches are
started — but a batch response already received when the post-call check
observes the signal is discarded, not applied: the run ends right after the
marking pass, leaving the batch entries `previewing`. -/
theorem C8_amended (outs : Nat → BatchOutcome) (ab ab2 : Nat → Bool) (batch : List Nat)
    (rest : List (List Nat)) (k c : Nat) (s : NotesState) (results : List BatchResultItem)
    (h0 : ab2 c = true)
    (h1 : ab c = false) (h2 : ab (c + 1) = true)
    (h3 : outs k = BatchOutcome.success results) :
    (runBatchesFrom outs ab2 (batch :: rest) k c s = s) ∧
    (runBatchesFrom outs ab (batch :: rest) k c s = markPreviewing batch s) := by
  constructor
  · simp [runBatchesFrom, h0]
  · simp [runBatchesFrom, h1, h2, h3]

/-- Witness for `C8_amended` on a one-batch schedule. -/
theorem C8_amended_witness :
    ((fun _ : Nat => true) 0 = true ∧
      (fun c : Nat => decide (1 ≤ c)) 0 = false ∧
      (fun c : Nat => decide (1 ≤ c)) 1 = true ∧
      (fun _ : Nat => BatchOutcome.success [exResult1]) 0 =
        BatchOutcome.success [exResult1]) ∧
    ((runBatchesFrom (fun _ => BatchOutcome.success [exResult1]) (fun _ => true)
        ([0] :: []) 0 0 (loadNotes [exNote1]) = loadNotes [exNote1]) ∧
      (runBatchesFrom (fun _ => BatchOutcome.success [exResult1]) (fun c => decide (1 ≤ c))
        ([0] :: []) 0 0 (loadNotes [exNote1]) = markPreviewing [0] (loadNotes [exNote1]))) :=
  ⟨⟨rfl, by decide, by decide, rfl⟩,
    C8_amended (fun _ => BatchOutcome.success [exResult1]) (fun c => decide (1 ≤ c))
      (fun _ => true) [0] [] 0 0 (loadNotes [exNote1]) [exResult1]
      rfl (by decide) (by decide) rfl⟩

/-! Claim C10. -/

/-- Claim C10 (confirmed): every single-entry reviewer operation invoked with
index `i` leaves every other index `j ≠ i` completely unchanged — same record,
proposal, status, error message and priority flag. -/
theorem C10_frame (i j : Nat) (s : NotesState) (f v source : String) (ct : CardType)
    (gout : Option PreviewResponse) (cout : CommitOutcome) (h : j ≠ i) :
    ((regeneratePreview i gout s).1[j]? = s[j]?) ∧
    ((updatePreviewField i f v s)[j]? = s[j]?) ∧
    ((updateCardType i ct s)[j]? = s[j]?) ∧
    ((toggleCore i s)[j]? = s[j]?) ∧
    ((approveNote source i cout s).1[j]? = s[j]?) ∧
    ((skipNote i s)[j]? = s[j]?) := by
  refine ⟨?_, ?_, ?_, ?_, ?_, ?_⟩
  · cases he : s[i]? with
    | none => simp [regeneratePreview, he]
    | some e =>
        simp [regeneratePreview, regenFinish, regenStart, he,
          modifyIdx_get?_ne _ _ _ _ h]
  · cases he : s[i]? with
    | none => simp [updatePreviewField, he]
    | some e =>
        cases hp : e.preview with
        | none => simp [updatePreviewField, he, hp]
        | some p => simp [updatePreviewField, he, hp, modifyIdx_get?_ne _ _ _ _ h]
  · cases he : s[i]? with
    | none => simp [updateCardType, he]
    | some e =>
        cases hp : e.preview with
        | none => simp [updateCardType, he, hp]
        | some p => simp [updateCardType, he, hp, modifyIdx_get?_ne _ _ _ _ h]
  · cases he : s[i]? with
    | none => simp [toggleCore, he]
    | some e => simp [toggleCore, he, modifyIdx_get?_ne _ _ _ _ h]
  · cases he : s[i]? with
    | none => simp [approveNote, he]
    | some e =>
        cases hp : e.preview with
        | none => simp [approveNote, he, hp]
        | some p =>
            by_cases ha : e.status = Status.approving
            · simp [approveNote, he, hp, ha]
            · cases cout <;>
                simp [approveNote, he, hp, ha, modifyIdx_get?_ne _ _ _ _ h]
  · simp [skipNote, modifyIdx_get?_ne _ _ _ _ h]

/-- Witness for `C10_frame` on a two-entry state. -/
theorem C10_witness :
    ((1 : Nat) ≠ 0) ∧
    (((regeneratePreview 0 (some exPreview1) [exReadyEntry, initEntry exNote2]).1[1]? =
        ([exReadyEntry, initEntry exNote2] : NotesState)[1]?) ∧
      ((updatePreviewField 0 "English" "x" [exReadyEntry, initEntry exNote2])[1]? =
        ([exReadyEntry, initEntry exNote2] : NotesState)[1]?) ∧
      ((updateCardType 0 CardType.phrase [exReadyEntry, initEntry exNote2])[1]? =
        ([exReadyEntry, initEntry exNote2] : NotesState)[1]?) ∧
      ((toggleCore 0 [exReadyEntry, initEntry exNote2])[1]? =
        ([exReadyEntry, initEntry exNote2] : NotesState)[1]?) ∧
      ((approveNote "japanese_class" 0 CommitOutcome.success
          [exReadyEntry, initEntry exNote2]).1[1]? =
        ([exReadyEntry, initEntry exNote2] : NotesState)[1]?) ∧
      ((skipNote 0 [exReadyEntry, initEntry exNote2])[1]? =
        ([exReadyEntry, initEntry exNote2] : NotesState)[1]?)) :=
  ⟨by decide,
    C10_frame 0 1 [exReadyEntry, initEntry exNote2] "English" "x" "japanese_class"
      CardType.phrase (some exPreview1) CommitOutcome.success (by decide)⟩

/-! Claim C4: invariant machinery. -/

theorem proposalInv_modifyIdx (f : MigrationNoteState → MigrationNoteState) (i : Nat)
    (s : NotesState) (hs : ProposalInv s)
    (hf : ∀ e, s[i]? = some e → entryInv (f e)) :
    ProposalInv (modifyIdx f i s) := by
  intro j e hj
  by_cases h : j = i
  · subst h
    rw [modifyIdx_get?_eq] at hj
    cases he : s[j]? with
    | none => rw [he] at hj; cases hj
    | some e0 =>
        rw [he] at hj
        simp only [Option.map_some'] at hj
        injection hj with h2
        subst h2
        exact hf e0 he
  · rw [modifyIdx_get?_ne _ _ _ _ h] at hj
    exact hs j e hj

theorem entryInv_markPend (e : MigrationNoteState) (he : entryInv e) : entryInv (markPend e) := by
  by_cases h : e.status = Status.pending
  · refine ⟨?_, ?_⟩
    · intro hc; simp [markPend, h] at hc
    · intro _; simpa [markPend, h] using he.2 (Or.inl h)
  · simpa [markPend, h] using he

theorem entryInv_errSet (msg : String) (e : MigrationNoteState) :
    entryInv { e with status := Status.error, error := some msg } := by
  refine ⟨?_, ?_⟩ <;> intro hc <;> simp at hc

theorem entryInv_resultUpdate (r : BatchResultItem) (e : MigrationNoteState) :
    entryInv (resultUpdate r e) := by
  by_cases hs : r.success
  · cases hnf : r.new_fields with
    | none =>
        refine ⟨?_, ?_⟩ <;> intro hc <;> simp [resultUpdate, hs, hnf] at hc
    | some nf =>
        cases hct : r.auto_classified_type with
        | none =>
            refine ⟨?_, ?_⟩ <;> intro hc <;> simp [resultUpdate, hs, hnf, hct] at hc
        | some ct =>
            refine ⟨?_, ?_⟩
            · intro _; simp [resultUpdate, hs, hnf, hct]
            · intro hc; simp [resultUpdate, hs, hnf, hct] at hc
  · refine ⟨?_, ?_⟩ <;> intro hc <;> simp [resultUpdate, hs] at hc

theorem proposalInv_markPreviewing (batch : List Nat) :
    ∀ (s : NotesState), ProposalInv s → ProposalInv (markPreviewing batch s) := by
  induction batch with
  | nil => intro s hs; exact hs
  | cons i rest ih =>
      intro s hs
      rw [show markPreviewing (i :: rest) s = markPreviewing rest (modifyIdx markPend i s) from rfl]
      exact ih _ (proposalInv_modifyIdx markPend i s hs (fun e he => entryInv_markPend e (hs i e he)))

theorem proposalInv_failBatch (batch : List Nat) (msg : String) :
    ∀ (s : NotesState), ProposalInv s → ProposalInv (failBatch batch msg s) := by
  induction batch with
  | nil => intro s hs; exact hs
  | cons i rest ih =>
      intro s hs
      rw [show failBatch (i :: rest) msg s =
        failBatch rest msg (modifyIdx (fun e => { e with status := Status.error, error := some msg }) i s) from rfl]
      exact ih _ (proposalInv_modifyIdx _ i s hs (fun e _ => entryInv_errSet msg e))

theorem proposalInv_applyBatchResult (batch : List Nat) (r : BatchResultItem) (s : NotesState)
    (hs : ProposalInv s) : ProposalInv (applyBatchResult batch r s) := by
  unfold applyBatchResult
  cases hf : findTarget batch r s with
  | none => exact hs
  | some t => exact proposalInv_modifyIdx _ t s hs (fun e _ => entryInv_resultUpdate r e)

theorem proposalInv_applyBatchResults (batch : List Nat) :
    ∀ (results : List BatchResultItem) (s : NotesState), ProposalInv s →
      ProposalInv (applyBatchResults batch results s) := by
  intro results
  induction results with
  | nil => intro s hs; exact hs
  | cons r rs ih =>
      intro s hs
      rw [show applyBatchResults batch (r :: rs) s =
        applyBatchResults batch rs (applyBatchResult batch r s) from rfl]
      exact ih _ (proposalInv_applyBatchResult batch r s hs)

theorem proposalInv_regenStart (i : Nat) (s : NotesState) (hs : ProposalInv s) :
    ProposalInv (regenStart i s) := by
  unfold regenStart
  refine proposalInv_modifyIdx _ i s hs (fun e _ => ⟨?_, ?_⟩) <;> intro hc <;> simp at hc ⊢

theorem proposalInv_regenFinish (i : Nat) (out : Option PreviewResponse) (s : NotesState)
    (hs : ProposalInv s) : ProposalInv (regenFinish i out s) := by
  unfold regenFinish
  cases out with
  | some p =>
      refine proposalInv_modifyIdx _ i s hs (fun e _ => ⟨?_, ?_⟩)
      · intro _; simp
      · intro hc; simp at hc
  | none =>
      refine proposalInv_modifyIdx _ i s hs (fun e _ => ⟨?_, ?_⟩) <;> intro hc <;> simp at hc ⊢

theorem proposalInv_updatePreviewField (i : Nat) (f v : String) (s : NotesState)
    (hs : ProposalInv s) : ProposalInv (updatePreviewField i f v s) := by
  cases he : s[i]? with
  | none => simpa [updatePreviewField, he] using hs
  | some current =>
      cases hp : current.preview with
      | none => simpa [updatePreviewField, he, hp] using hs
      | some p =>
          have heq : updatePreviewField i f v s = modifyIdx (fun _ =>
              { current with
                preview := some { p with new_fields := setField p.new_fields f v } }) i s := by
            simp [updatePreviewField, he, hp]
          rw [heq]
          refine proposalInv_modifyIdx _ i s hs (fun e _ => ⟨?_, ?_⟩)
          · intro _; simp
          · intro hst
            have hnone : current.preview = none := (hs i current he).2 (by simpa using hst)
            rw [hp] at hnone
            cases hnone

theorem proposalInv_updateCardType (i : Nat) (ct : CardType) (s : NotesState)
    (hs : ProposalInv s) : ProposalInv (updateCardType i ct s) := by
  cases he : s[i]? with
  | none => simpa [updateCardType, he] using hs
  | some current =>
      cases hp : current.preview with
      | none => simpa [updateCardType, he, hp] using hs
      | some p =>
          have heq : updateCardType i ct s = modifyIdx (fun _ =>
              { current with preview := some { p with auto_classified_type := ct } }) i s := by
            simp [updateCardType, he, hp]
          rw [heq]
          refine proposalInv_modifyIdx _ i s hs (fun e _ => ⟨?_, ?_⟩)
          · intro _; simp
          · intro hst
            have hnone : current.preview = none := (hs i current he).2 (by simpa using hst)
            rw [hp] at hnone
            cases hnone

theorem proposalInv_toggleCore (i : Nat) (s : NotesState) (hs : ProposalInv s) :
    ProposalInv (toggleCore i s) := by
  cases he : s[i]? with
  | none => simpa [toggleCore, he] using hs
  | some current =>
      have heq : toggleCore i s =
          modifyIdx (fun _ => { current with isCore := !current.isCore }) i s := by
        simp [toggleCore, he]
      rw [heq]
      refine proposalInv_modifyIdx _ i s hs (fun e _ => ⟨?_, ?_⟩)
      · intro h; exact (hs i current he).1 (by simpa using h)
      · intro h; simpa using (hs i current he).2 (by simpa using h)

theorem proposalInv_approveStart (i : Nat) (s : NotesState) (hs : ProposalInv s) :
    ProposalInv (approveStart i s) := by
  cases he : s[i]? with
  | none => simpa [approveStart, he] using hs
  | some e =>
      cases hp : e.preview with
      | none => simpa [approveStart, he, hp] using hs
      | some p =>
          by_cases ha : e.status = Status.approving
          · simpa [approveStart, he, hp, ha] using hs
          · have heq : approveStart i s =
                modifyIdx (fun x => { x with status := Status.approving }) i s := by
              simp [approveStart, he, hp, ha]
            rw [heq]
            refine proposalInv_modifyIdx _ i s hs (fun e0 he0 => ?_)
            rw [he] at he0
            injection he0 with he0
            subst he0
            refine ⟨?_, ?_⟩
            · intro _; simp [hp]
            · intro hc; simp at hc

theorem proposalInv_approveFinish (i : Nat) (out : CommitOutcome) (s : NotesState)
    (hs : ProposalInv s) : ProposalInv (approveFinish i out s) := by
  cases out with
  | success =>
      show ProposalInv (modifyIdx (fun x => { x with status := Status.approved }) i s)
      refine proposalInv_modifyIdx _ i s hs (fun e0 _ => ⟨?_, ?_⟩) <;> intro hc <;> simp at hc
  | failure msg =>
      show ProposalInv
        (modifyIdx (fun x => { x with status := Status.error, error := some msg }) i s)
      exact proposalInv_modifyIdx _ i s hs (fun e0 _ => entryInv_errSet msg e0)

theorem proposalInv_skipNote (i : Nat) (s : NotesState) (hs : ProposalInv s) :
    ProposalInv (skipNote i s) := by
  unfold skipNote
  refine proposalInv_modifyIdx _ i s hs (fun e _ => ⟨?_, ?_⟩) <;> intro hc <;> simp at hc

theorem proposalInv_loadNotes (ns : List MigrationNote) : ProposalInv (loadNotes ns) := by
  intro j e hj
  rw [show loadNotes ns = ns.map initEntry from rfl, List.getElem?_map] at hj
  cases hn : ns[j]? with
  | none => rw [hn] at hj; cases hj
  | some n =>
      rw [hn] at hj
      simp only [Option.map_some'] at hj
      injection hj with h2
      subst h2
      refine ⟨?_, ?_⟩
      · intro hc; simp [initEntry] at hc
      · intro _; simp [initEntry]

/-- Claim C4 (amended): in every reachable session state, entries whose status
is `ready` or `approving` always carry a proposal, and entries whose status is
`pending` or `previewing` never do.  The remaining parts of the claimed iff
fail (see the counterexample): a skipped entry keeps whatever proposal it had
when it was skipped, so a non-absent proposal does not imply status in
`{ready, approving, approved}` or a commit-failure `error`; and `approved`
does not imply a proposal either, because a regenerate issued while the commit
is in flight clears the proposal before the unguarded success handler sets
`approved`. -/
theorem C4_amended (s : NotesState) (hr : Reachable s) : ProposalInv s := by
  induction hr with
  | load ns => exact proposalInv_loadNotes ns
  | mark batch s _ ih => exact proposalInv_markPreviewing batch s ih
  | applyBatch batch results s _ ih => exact proposalInv_applyBatchResults batch results s ih
  | failB batch msg s _ ih => exact proposalInv_failBatch batch msg s ih
  | regenS i s _ ih => exact proposalInv_regenStart i s ih
  | regenF i out s _ ih => exact proposalInv_regenFinish i out s ih
  | updateF i f v s _ ih => exact proposalInv_updatePreviewField i f v s ih
  | updateT i ct s _ ih => exact proposalInv_updateCardType i ct s ih
  | toggle i s _ ih => exact proposalInv_toggleCore i s ih
  | approveS i s _ ih => exact proposalInv_approveStart i s ih
  | approveF i out s _ ih => exact proposalInv_approveFinish i out s ih
  | skip i s _ ih => exact proposalInv_skipNote i s ih

/-- Witness for `C4_amended` at a reachable state with a ready entry. -/
theorem C4_amended_witness :
    Reachable (applyBatchResults [0] [exResult1] (markPreviewing [0] (loadNotes [exNote1]))) ∧
    ProposalInv (applyBatchResults [0] [exResult1] (markPreviewing [0] (loadNotes [exNote1]))) :=
  ⟨Reachable.applyBatch [0] [exResult1] _ (Reachable.mark [0] _ (Reachable.load [exNote1])),
    C4_amended _
      (Reachable.applyBatch [0] [exResult1] _ (Reachable.mark [0] _ (Reachable.load [exNote1])))⟩

/-- Claim C4 counterexample: two reachable states refuting the claimed iff.
First, an entry with a non-absent proposal whose status is `skipped` (not
`ready`, `approving`, `approved`, nor an `error` from a failed commit):
generation completed, the reviewer skipped the entry, and `skipNote` retains
the proposal.  Second, an `approved` entry with an absent proposal: the entry
was `ready`, `approveNote` marked it `approving` and issued the commit, a
`regeneratePreview` issued during the in-flight commit cleared the proposal,
and the commit's success handler then set `approved` unconditionally. -/
theorem C4_counterexample :
    (Reachable
      (skipNote 0 (applyBatchResults [0] [exResult1] (markPreviewing [0] (loadNotes [exNote1])))) ∧
    ((skipNote 0 (applyBatchResults [0] [exResult1]
        (markPreviewing [0] (loadNotes [exNote1]))))[0]? =
      some { note := exNote1, preview := some exPreview1, status := Status.skipped
             error := none, isCore := true })) ∧
    (Reachable
      (approveFinish 0 CommitOutcome.success (regenStart 0 (approveStart 0
        (applyBatchResults [0] [exResult1] (markPreviewing [0] (loadNotes [exNote1])))))) ∧
    ((approveFinish 0 CommitOutcome.success (regenStart 0 (approveStart 0
        (applyBatchResults [0] [exResult1] (markPreviewing [0] (loadNotes [exNote1]))))))[0]? =
      some { note := exNote1, preview := none, status := Status.approved
             error := none, isCore := true })) :=
  ⟨⟨Reachable.skip 0 _
      (Reachable.applyBatch [0] [exResult1] _ (Reachable.mark [0] _ (Reachable.load [exNote1]))),
    by decide⟩,
   ⟨Reachable.approveF 0 CommitOutcome.success _ (Reachable.regenS 0 _ (Reachable.approveS 0 _
      (Reachable.applyBatch [0] [exResult1] _
        (Reachable.mark [0] _ (Reachable.load [exNote1]))))),
    by decide⟩⟩

/-! Claim C7. -/

/-- Claim C7 (confirmed): batch responses are attributed by identifier, never
by position.  A result never touches an entry whose identifier differs from
the result's; the matched entry becomes `ready` with the proposal on a
successful item, or `error` with the item's message on a failed item, and the
result loop is a fold that processes every result of the response (a failed
item aborts nothing).  On a whole-batch transport failure every entry of that
batch is set to `error` with the batch message (entries outside the batch are
untouched), and in both the failure and the success case the scheduler
proceeds to the remaining batches. -/
theorem C7_batch_application (batch : List Nat) (r : BatchResultItem) (s : NotesState)
    (j : Nat) (e : MigrationNoteState) (nf : Fields) (ct : CardType) (m msg : String)
    (outs : Nat → BatchOutcome) (ab : Nat → Bool) (rest : List (List Nat)) (k c : Nat)
    (results : List BatchResultItem)
    (hj : s[j]? = some e) :
    (e.note.note_id ≠ r.note_id → (applyBatchResult batch r s)[j]? = some e) ∧
    (findTarget batch r s = some j → r.success = true → r.new_fields = some nf →
      r.auto_classified_type = some ct →
      (applyBatchResult batch r s)[j]? =
        some { e with
          preview := some { note_id := r.note_id, new_fields := nf, auto_classified_type := ct }
          status := Status.ready }) ∧
    (findTarget batch r s = some j → r.success = false → r.error = some m →
      (applyBatchResult batch r s)[j]? =
        some { e with status := Status.error, error := some m }) ∧
    (j ∈ batch → (failBatch batch msg s)[j]? =
      some { e with status := Status.error, error := some msg }) ∧
    (j ∉ batch → (failBatch batch msg s)[j]? = some e) ∧
    (applyBatchResults batch (r :: results) s =
      applyBatchResults batch results (applyBatchResult batch r s)) ∧
    (ab c = false → outs k = BatchOutcome.failure msg →
      runBatchesFrom outs ab (batch :: rest) k c s =
        runBatchesFrom outs ab rest (k + 1) (c + 1)
          (failBatch batch msg (markPreviewing batch s))) ∧
    (ab c = false → ab (c + 1) = false → outs k = BatchOutcome.success results →
      runBatchesFrom outs ab (batch :: rest) k c s =
        runBatchesFrom outs ab rest (k + 1) (c + 2)
          (applyBatchResults batch results (markPreviewing batch s))) := by
  refine ⟨?_, ?_, ?_, ?_, ?_, rfl, ?_, ?_⟩
  · intro hne
    unfold applyBatchResult
    cases hf : findTarget batch r s with
    | none => exact hj
    | some t =>
        by_cases hjt : j = t
        · subst hjt
          have hp := List.find?_some hf
          rw [hj] at hp
          simp at hp
          exact absurd hp hne
        · rw [modifyIdx_get?_ne _ _ _ _ hjt]
          exact hj
  · intro hf hs hnf hct
    simp [applyBatchResult, hf, modifyIdx_get?_eq, hj, resultUpdate, hs, hnf, hct]
  · intro hf hs hm
    simp [applyBatchResult, hf, modifyIdx_get?_eq, hj, resultUpdate, hs, hm]
  · intro hmem
    rw [failBatch_get?_mem batch msg s j hmem, hj]
    rfl
  · intro hmem
    rw [failBatch_get?_notMem batch msg s j hmem]
    exact hj
  · intro h1 h2
    simp [runBatchesFrom, h1, h2]
  · intro h1 h2 h3
    simp [runBatchesFrom, h1, h2, h3]

/-- Witness for `C7_batch_application` on a one-entry, one-batch state. -/
theorem C7_witness :
    (([exPreviewingEntry] : NotesState)[0]? = some exPreviewingEntry) ∧
    ((exPreviewingEntry.note.note_id ≠ exResult1.note_id →
        (applyBatchResult [0] exResult1 [exPreviewingEntry])[0]? = some exPreviewingEntry) ∧
      (findTarget [0] exResult1 [exPreviewingEntry] = some 0 → exResult1.success = true →
        exResult1.new_fields = some [("Hiragana", "neko")] →
        exResult1.auto_classified_type = some CardType.word →
        (applyBatchResult [0] exResult1 [exPreviewingEntry])[0]? =
          some { exPreviewingEntry with
            preview := some { note_id := exResult1.note_id, new_fields := [("Hiragana", "neko")]
                              auto_classified_type := CardType.word }
            status := Status.ready }) ∧
      (findTarget [0] exResult1 [exPreviewingEntry] = some 0 → exResult1.success = false →
        exResult1.error = some "itemfail" →
        (applyBatchResult [0] exResult1 [exPreviewingEntry])[0]? =
          some { exPreviewingEntry with status := Status.error, error := some "itemfail" }) ∧
      ((0 : Nat) ∈ [0] → (failBatch [0] "bfail" [exPreviewingEntry])[0]? =
        some { exPreviewingEntry with status := Status.error, error := some "bfail" }) ∧
      ((0 : Nat) ∉ [0] → (failBatch [0] "bfail" [exPreviewingEntry])[0]? =
        some exPreviewingEntry) ∧
      (applyBatchResults [0] (exResult1 :: [exResult1]) [exPreviewingEntry] =
        applyBatchResults [0] [exResult1] (applyBatchResult [0] exResult1 [exPreviewingEntry])) ∧
      ((fun _ : Nat => false) 0 = false →
        (fun _ : Nat => BatchOutcome.failure "bfail") 0 = BatchOutcome.failure "bfail" →
        runBatchesFrom (fun _ => BatchOutcome.failure "bfail") (fun _ => false)
            ([0] :: []) 0 0 [exPreviewingEntry] =
          runBatchesFrom (fun _ => BatchOutcome.failure "bfail") (fun _ => false) [] 1 1
            (failBatch [0] "bfail" (markPreviewing [0] [exPreviewingEntry]))) ∧
      ((fun _ : Nat => false) 0 = false → (fun _ : Nat => false) 1 = false →
        (fun _ : Nat => BatchOutcome.failure "bfail") 0 = BatchOutcome.success [exResult1] →
        runBatchesFrom (fun _ => BatchOutcome.failure "bfail") (fun _ => false)
            ([0] :: []) 0 0 [exPreviewingEntry] =
          runBatchesFrom (fun _ => BatchOutcome.failure "bfail") (fun _ => false) [] 1 2
            (applyBatchResults [0] [exResult1] (markPreviewing [0] [exPreviewingEntry])))) :=
  ⟨by decide,
    C7_batch_application [0] exResult1 [exPreviewingEntry] 0 exPreviewingEntry
      [("Hiragana", "neko")] CardType.word "itemfail" "bfail"
      (fun _ => BatchOutcome.failure "bfail") (fun _ => false) [] 0 0 [exResult1] (by decide)⟩

/-! Claim C9: chunking and note-preservation machinery. -/

theorem chunksOfAux_congr {α : Type} (n : Nat) (hn : 0 < n) :
    ∀ (fuel1 fuel2 : Nat) (l : List α), l.length ≤ fuel1 → l.length ≤ fuel2 →
      chunksOfAux n fuel1 l = chunksOfAux n fuel2 l := by
  intro fuel1
  induction fuel1 with
  | zero =>
      intro fuel2 l h1 _
      have : l = [] := List.eq_nil_of_length_eq_zero (Nat.le_zero.mp h1)
      subst this
      cases fuel2 <;> rfl
  | succ fuel ih =>
      intro fuel2 l h1 h2
      cases l with
      | nil => cases fuel2 <;> rfl
      | cons x xs =>
          cases fuel2 with
          | zero => simp at h2
          | succ fuel2 =>
              show (x :: xs).take n :: chunksOfAux n fuel ((x :: xs).drop n) =
                (x :: xs).take n :: chunksOfAux n fuel2 ((x :: xs).drop n)
              have hd : ((x :: xs).drop n).length ≤ fuel := by
                simp only [List.length_drop, List.length_cons]
                simp only [List.length_cons] at h1
                omega
              have hd2 : ((x :: xs).drop n).length ≤ fuel2 := by
                simp only [List.length_drop, List.length_cons]
                simp only [List.length_cons] at h2
                omega
              rw [ih _ _ hd hd2]

theorem chunksOf_cons {α : Type} (n : Nat) (hn : 0 < n) (x : α) (xs : List α) :
    chunksOf n (x :: xs) = (x :: xs).take n :: chunksOf n ((x :: xs).drop n) := by
  show chunksOfAux n (xs.length + 1) (x :: xs) = _
  show (x :: xs).take n :: chunksOfAux n xs.length ((x :: xs).drop n) = _
  rw [chunksOfAux_congr n hn xs.length ((x :: xs).drop n).length ((x :: xs).drop n)
    (by simp only [List.length_drop, List.length_cons]; omega) le_rfl]
  rfl

theorem pendingIndices_loadNotes (ns : List MigrationNote) :
    pendingIndices (loadNotes ns) = List.range ns.length := by
  have hlen : (loadNotes ns).length = ns.length := by simp [loadNotes]
  unfold pendingIndices
  rw [hlen]
  apply List.filter_eq_self.mpr
  intro i hi
  rw [List.mem_range] at hi
  have hget : (loadNotes ns)[i]? = some (initEntry ns[i]) := by
    rw [loadNotes, List.getElem?_map, List.getElem?_eq_getElem hi]
    rfl
  rw [hget]
  simp [initEntry]

theorem resultUpdate_note (r : BatchResultItem) (e : MigrationNoteState) :
    (resultUpdate r e).note = e.note := by
  by_cases hs : r.success
  · cases hnf : r.new_fields with
    | none => simp [resultUpdate, hs, hnf]
    | some nf =>
        cases hct : r.auto_classified_type with
        | none => simp [resultUpdate, hs, hnf, hct]
        | some ct => simp [resultUpdate, hs, hnf, hct]
  · simp [resultUpdate, hs]

theorem markPend_note (e : MigrationNoteState) : (markPend e).note = e.note := by
  by_cases h : e.status = Status.pending <;> simp [markPend, h]

theorem notesMatch_modifyIdx (ns : List MigrationNote) (f : MigrationNoteState → MigrationNoteState)
    (hf : ∀ e, (f e).note = e.note) (i : Nat) (s : NotesState) (hm : NotesMatch ns s) :
    NotesMatch ns (modifyIdx f i s) := by
  intro j n hn
  obtain ⟨e, he, hne⟩ := hm j n hn
  by_cases h : j = i
  · subst h
    exact ⟨f e, by rw [modifyIdx_get?_eq, he]; rfl, by rw [hf]; exact hne⟩
  · exact ⟨e, by rw [modifyIdx_get?_ne _ _ _ _ h]; exact he, hne⟩

theorem notesMatch_markPreviewing (ns : List MigrationNote) (batch : List Nat) :
    ∀ (s : NotesState), NotesMatch ns s → NotesMatch ns (markPreviewing batch s) := by
  induction batch with
  | nil => intro s hm; exact hm
  | cons i rest ih =>
      intro s hm
      rw [show markPreviewing (i :: rest) s = markPreviewing rest (modifyIdx markPend i s) from rfl]
      exact ih _ (notesMatch_modifyIdx ns markPend markPend_note i s hm)

theorem notesMatch_applyBatchResult (ns : List MigrationNote) (batch : List Nat)
    (r : BatchResultItem) (s : NotesState) (hm : NotesMatch ns s) :
    NotesMatch ns (applyBatchResult batch r s) := by
  unfold applyBatchResult
  cases hf : findTarget batch r s with
  | none => exact hm
  | some t => exact notesMatch_modifyIdx ns _ (resultUpdate_note r) t s hm

theorem notesMatch_applyBatchResults (ns : List MigrationNote) (batch : List Nat) :
    ∀ (results : List BatchResultItem) (s : NotesState), NotesMatch ns s →
      NotesMatch ns (applyBatchResults batch results s) := by
  intro results
  induction results with
  | nil => intro s hm; exact hm
  | cons r rs ih =>
      intro s hm
      rw [show applyBatchResults batch (r :: rs) s =
        applyBatchResults batch rs (applyBatchResult batch r s) from rfl]
      exact ih _ (notesMatch_applyBatchResult ns batch r s hm)

theorem noteId_inj (ns : List MigrationNote)
    (hndid : (ns.map (fun n => n.note_id)).Nodup) (i1 i2 : Nat) (n1 n2 : MigrationNote)
    (h1 : ns[i1]? = some n1) (h2 : ns[i2]? = some n2) (heq : n1.note_id = n2.note_id) :
    i1 = i2 := by
  have hlt : i1 < ns.length := by
    by_contra hge
    rw [List.getElem?_eq_none (Nat.le_of_not_lt hge)] at h1
    cases h1
  have hmapped : (ns.map (fun n => n.note_id))[i1]? = (ns.map (fun n => n.note_id))[i2]? := by
    rw [List.getElem?_map, List.getElem?_map, h1, h2]
    simpa using heq
  exact List.getElem?_inj (by simpa using hlt) hndid hmapped

theorem resultOfOutcome_note_id (outcome : Nat → Option PreviewResponse) (id : Nat) :
    (resultOfOutcome outcome id).note_id = id := by
  cases ho : outcome id <;> simp [resultOfOutcome, ho]

theorem resultUpdate_resolve (outcome : Nat → Option PreviewResponse) (n : MigrationNote) :
    resultUpdate (resultOfOutcome outcome n.note_id) (markPend (initEntry n)) =
      resolveEntry (outcome n.note_id) (initEntry n) := by
  cases ho : outcome n.note_id with
  | some p => simp [resultOfOutcome, ho, resultUpdate, markPend, initEntry, resolveEntry]
  | none => simp [resultOfOutcome, ho, resultUpdate, markPend, initEntry, resolveEntry]

theorem findTarget_aligned (r : BatchResultItem) (i : Nat) :
    ∀ (ball : List Nat) (s : NotesState),
      i ∈ ball →
      (∃ e, s[i]? = some e ∧ e.note.note_id = r.note_id) →
      (∀ i' ∈ ball, (∃ e, s[i']? = some e ∧ e.note.note_id = r.note_id) → i' = i) →
      findTarget ball r s = some i := by
  intro ball
  induction ball with
  | nil => intro s hi _ _; cases hi
  | cons b bs ih =>
      intro s hi hpred huniq
      unfold findTarget
      by_cases hb : (match s[b]? with
          | some e => decide (e.note.note_id = r.note_id)
          | none => false) = true
      · have hbex : ∃ e, s[b]? = some e ∧ e.note.note_id = r.note_id := by
          cases hsb : s[b]? with
          | none => rw [hsb] at hb; cases hb
          | some e =>
              rw [hsb] at hb
              exact ⟨e, rfl, of_decide_eq_true hb⟩
        have hbi : b = i := huniq b (List.mem_cons_self _ _) hbex
        subst hbi
        exact List.find?_cons_of_pos bs hb
      · have hstep : List.find? (fun idx => match s[idx]? with
            | some e => decide (e.note.note_id = r.note_id)
            | none => false) (b :: bs) =
          List.find? (fun idx => match s[idx]? with
            | some e => decide (e.note.note_id = r.note_id)
            | none => false) bs := List.find?_cons_of_neg bs (by simpa using hb)
        rw [hstep]
        have hib : i ≠ b := by
          intro h
          apply hb
          obtain ⟨e, he, hid⟩ := hpred
          rw [← h, he]
          simpa using hid
        have hi' : i ∈ bs := by
          rcases List.mem_cons.mp hi with h | h
          · exact absurd h hib
          · exact h
        exact ih s hi' hpred (fun i' hm hp => huniq i' (List.mem_cons_of_mem _ hm) hp)

theorem expectedFinal_get (ns : List MigrationNote) (outcome : Nat → Option PreviewResponse)
    (i : Nat) (n : MigrationNote) (hn : ns[i]? = some n) :
    (expectedFinal ns outcome)[i]? = some (resolveEntry (outcome n.note_id) (initEntry n)) := by
  rw [expectedFinal, List.getElem?_map, hn]
  rfl

theorem applyAligned_get (ns : List MigrationNote) (outcome : Nat → Option PreviewResponse)
    (hndid : (ns.map (fun n => n.note_id)).Nodup) (ball : List Nat)
    (hball : ∀ i ∈ ball, i < ns.length) :
    ∀ (bres : List Nat) (s : NotesState),
      (∀ i ∈ bres, ∃ n, ns[i]? = some n ∧ s[i]? = some (markPend (initEntry n))) →
      bres.Nodup → (∀ i ∈ bres, i ∈ ball) →
      NotesMatch ns s →
      ∀ j, (applyBatchResults ball
          (bres.filterMap (fun i => (ns[i]?).map (fun n => resultOfOutcome outcome n.note_id)))
          s)[j]? =
        if j ∈ bres then (expectedFinal ns outcome)[j]? else s[j]? := by
  intro bres
  induction bres with
  | nil => intro s _ _ _ _ j; simp [applyBatchResults]
  | cons i rest ih =>
      intro s hpend hnd hsub hm j
      obtain ⟨n, hn, hsi⟩ := hpend i (List.mem_cons_self _ _)
      have hfm : (i :: rest).filterMap
          (fun i => (ns[i]?).map (fun n => resultOfOutcome outcome n.note_id)) =
          resultOfOutcome outcome n.note_id ::
            rest.filterMap (fun i => (ns[i]?).map (fun n => resultOfOutcome outcome n.note_id)) := by
        rw [List.filterMap_cons, hn]
        rfl
      rw [hfm]
      have hrid : (resultOfOutcome outcome n.note_id).note_id = n.note_id :=
        resultOfOutcome_note_id outcome n.note_id
      have hft : findTarget ball (resultOfOutcome outcome n.note_id) s = some i := by
        apply findTarget_aligned _ i ball s (hsub i (List.mem_cons_self _ _))
        · exact ⟨markPend (initEntry n), hsi, by rw [markPend_note, hrid]; rfl⟩
        · intro i' hmem hex
          obtain ⟨e', he', hid'⟩ := hex
          have hlt : i' < ns.length := hball i' hmem
          have hn' : ns[i']? = some ns[i'] := List.getElem?_eq_getElem hlt
          obtain ⟨e'', he'', hnote''⟩ := hm i' ns[i'] hn'
          rw [he'] at he''
          injection he'' with he''
          subst he''
          apply noteId_inj ns hndid i' i ns[i'] n hn' hn
          rw [← hnote'', hid', hrid]
      have happ : applyBatchResult ball (resultOfOutcome outcome n.note_id) s =
          modifyIdx (resultUpdate (resultOfOutcome outcome n.note_id)) i s := by
        unfold applyBatchResult
        rw [hft]
      rw [show applyBatchResults ball (resultOfOutcome outcome n.note_id ::
          rest.filterMap (fun i => (ns[i]?).map (fun n => resultOfOutcome outcome n.note_id))) s =
        applyBatchResults ball
          (rest.filterMap (fun i => (ns[i]?).map (fun n => resultOfOutcome outcome n.note_id)))
          (applyBatchResult ball (resultOfOutcome outcome n.note_id) s) from rfl]
      rw [happ]
      have hinotrest : i ∉ rest := (List.nodup_cons.mp hnd).1
      have hih := ih (modifyIdx (resultUpdate (resultOfOutcome outcome n.note_id)) i s)
        (fun i' hi' => by
          obtain ⟨n', hn', hsi'⟩ := hpend i' (List.mem_cons_of_mem _ hi')
          refine ⟨n', hn', ?_⟩
          rw [modifyIdx_get?_ne _ _ _ _ (fun h => hinotrest (by rwa [h] at hi'))]
          exact hsi')
        (List.nodup_cons.mp hnd).2
        (fun i' hi' => hsub i' (List.mem_cons_of_mem _ hi'))
        (notesMatch_modifyIdx ns _ (resultUpdate_note _) i s hm)
      rw [hih j]
      by_cases hjrest : j ∈ rest
      · rw [if_pos hjrest, if_pos (List.mem_cons_of_mem _ hjrest)]
      · rw [if_neg hjrest]
        by_cases hji : j = i
        · subst hji
          rw [if_pos (List.mem_cons_self _ _)]
          rw [modifyIdx_get?_eq, hsi]
          rw [expectedFinal_get ns outcome j n hn]
          rw [show ((some (markPend (initEntry n))).map
              (resultUpdate (resultOfOutcome outcome n.note_id))) =
            some (resultUpdate (resultOfOutcome outcome n.note_id) (markPend (initEntry n)))
            from rfl]
          rw [resultUpdate_resolve]
        · rw [if_neg (by
            intro hc
            rcases List.mem_cons.mp hc with h | h
            · exact hji h
            · exact hjrest h)]
          rw [modifyIdx_get?_ne _ _ _ _ hji]

theorem batchOutcomesFor_eq (ns : List MigrationNote) (outcome : Nat → Option PreviewResponse)
    (kk : Nat) :
    batchOutcomesFor outcome (loadNotes ns) kk =
      BatchOutcome.success
        (((chunksOf BATCH_SIZE (List.range ns.length)).getD kk []).filterMap
          (fun i => (ns[i]?).map (fun n => resultOfOutcome outcome n.note_id))) := by
  unfold batchOutcomesFor idsOf
  rw [pendingIndices_loadNotes, List.map_filterMap]
  congr 1
  apply List.filterMap_congr
  intro i _
  cases hn : ns[i]? with
  | none => simp [loadNotes, List.getElem?_map, hn]
  | some n => simp [loadNotes, List.getElem?_map, hn, initEntry]

theorem runBatches_get (ns : List MigrationNote) (outcome : Nat → Option PreviewResponse)
    (hndid : (ns.map (fun n => n.note_id)).Nodup) :
    ∀ (fuel : Nat) (l : List Nat), l.length ≤ fuel →
    ∀ (k c : Nat) (s : NotesState) (outs : Nat → BatchOutcome),
      (∀ i ∈ l, ∃ n, ns[i]? = some n ∧ s[i]? = some (initEntry n)) →
      l.Nodup →
      NotesMatch ns s →
      (∀ i ∈ l, i < ns.length) →
      (∀ jj : Nat, outs (k + jj) = BatchOutcome.success
          (((chunksOf BATCH_SIZE l).getD jj []).filterMap
            (fun i => (ns[i]?).map (fun n => resultOfOutcome outcome n.note_id)))) →
      ∀ j, (runBatchesFrom outs (fun _ => false) (chunksOf BATCH_SIZE l) k c s)[j]? =
        if j ∈ l then (expectedFinal ns outcome)[j]? else s[j]? := by
  intro fuel
  induction fuel with
  | zero =>
      intro l hl k c s outs _ _ _ _ _ j
      have : l = [] := List.eq_nil_of_length_eq_zero (Nat.le_zero.mp hl)
      subst this
      simp [chunksOf, chunksOfAux, runBatchesFrom]
  | succ fuel ih =>
      intro l hl k c s outs hpend hnd hm hvalid houts j
      cases l with
      | nil => simp [chunksOf, chunksOfAux, runBatchesFrom]
      | cons x xs =>
          rw [chunksOf_cons BATCH_SIZE (by decide) x xs]
          have hout0 := houts 0
          rw [Nat.add_zero, chunksOf_cons BATCH_SIZE (by decide) x xs] at hout0
          rw [show ((x :: xs).take BATCH_SIZE ::
              chunksOf BATCH_SIZE ((x :: xs).drop BATCH_SIZE)).getD 0 [] =
            (x :: xs).take BATCH_SIZE from rfl] at hout0
          have hstep : runBatchesFrom outs (fun _ => false)
              ((x :: xs).take BATCH_SIZE :: chunksOf BATCH_SIZE ((x :: xs).drop BATCH_SIZE))
              k c s =
            runBatchesFrom outs (fun _ => false)
              (chunksOf BATCH_SIZE ((x :: xs).drop BATCH_SIZE)) (k + 1) (c + 2)
              (applyBatchResults ((x :: xs).take BATCH_SIZE)
                (((x :: xs).take BATCH_SIZE).filterMap
                  (fun i => (ns[i]?).map (fun n => resultOfOutcome outcome n.note_id)))
                (markPreviewing ((x :: xs).take BATCH_SIZE) s)) := by
            simp [runBatchesFrom, hout0]
          rw [hstep]
          have hsubtake : ∀ i ∈ (x :: xs).take BATCH_SIZE, i ∈ x :: xs :=
            fun i hi => List.take_subset _ _ hi
          have hsubdrop : ∀ i ∈ (x :: xs).drop BATCH_SIZE, i ∈ x :: xs :=
            fun i hi => List.drop_subset _ _ hi
          have hdisj : List.Disjoint ((x :: xs).take BATCH_SIZE) ((x :: xs).drop BATCH_SIZE) :=
            List.disjoint_take_drop hnd le_rfl
          have hmark : NotesMatch ns (markPreviewing ((x :: xs).take BATCH_SIZE) s) :=
            notesMatch_markPreviewing ns _ s hm
          have hs2 := applyAligned_get ns outcome hndid ((x :: xs).take BATCH_SIZE)
            (fun i hi => hvalid i (hsubtake i hi))
            ((x :: xs).take BATCH_SIZE)
            (markPreviewing ((x :: xs).take BATCH_SIZE) s)
            (fun i hi => by
              obtain ⟨n, hn, hsi⟩ := hpend i (hsubtake i hi)
              refine ⟨n, hn, ?_⟩
              rw [markPreviewing_get?_mem _ _ _ hi, hsi]
              rfl)
            (hnd.sublist (List.take_sublist _ _))
            (fun i hi => hi)
            hmark
          have hihres := ih ((x :: xs).drop BATCH_SIZE)
            (by
              have hB : BATCH_SIZE = 10 := rfl
              simp only [List.length_drop, List.length_cons]
              simp only [List.length_cons] at hl
              omega)
            (k + 1) (c + 2)
            (applyBatchResults ((x :: xs).take BATCH_SIZE)
              (((x :: xs).take BATCH_SIZE).filterMap
                (fun i => (ns[i]?).map (fun n => resultOfOutcome outcome n.note_id)))
              (markPreviewing ((x :: xs).take BATCH_SIZE) s))
            outs
            (fun i hi => by
              obtain ⟨n, hn, hsi⟩ := hpend i (hsubdrop i hi)
              refine ⟨n, hn, ?_⟩
              have hnotin : i ∉ (x :: xs).take BATCH_SIZE := fun hc => hdisj hc hi
              rw [hs2 i, if_neg hnotin, markPreviewing_get?_notMem _ _ _ hnotin]
              exact hsi)
            (hnd.sublist (List.drop_sublist _ _))
            (notesMatch_applyBatchResults ns _ _ _ hmark)
            (fun i hi => hvalid i (hsubdrop i hi))
            (fun jj => by
              have := houts (jj + 1)
              rw [show k + (jj + 1) = k + 1 + jj by omega] at this
              rw [this, chunksOf_cons BATCH_SIZE (by decide) x xs]
              rw [List.getD_cons_succ])
          rw [hihres j]
          by_cases hjdrop : j ∈ (x :: xs).drop BATCH_SIZE
          · rw [if_pos hjdrop, if_pos (hsubdrop j hjdrop)]
          · rw [if_neg hjdrop]
            rw [hs2 j]
            by_cases hjtake : j ∈ (x :: xs).take BATCH_SIZE
            · rw [if_pos hjtake, if_pos (hsubtake j hjtake)]
            · rw [if_neg hjtake, markPreviewing_get?_notMem _ _ _ hjtake,
                if_neg (fun hc => by
                  have := (List.take_append_drop BATCH_SIZE (x :: xs)) ▸ hc
                  rcases List.mem_append.mp this with h | h
                  · exact hjtake h
                  · exact hjdrop h)]

theorem batched_final (ns : List MigrationNote) (outcome : Nat → Option PreviewResponse)
    (hndid : (ns.map (fun n => n.note_id)).Nodup) :
    generateAllPreviews (batchOutcomesFor outcome (loadNotes ns)) (fun _ => false)
        (loadNotes ns) = expectedFinal ns outcome := by
  apply List.ext_getElem?
  intro j
  unfold generateAllPreviews
  rw [pendingIndices_loadNotes]
  rw [runBatches_get ns outcome hndid ns.length (List.range ns.length)
    (by simp) 0 0 (loadNotes ns) (batchOutcomesFor outcome (loadNotes ns))
    (fun i hi => by
      rw [List.mem_range] at hi
      exact ⟨ns[i], List.getElem?_eq_getElem hi, by
        rw [loadNotes, List.getElem?_map, List.getElem?_eq_getElem hi]; rfl⟩)
    (List.nodup_range ns.length)
    (fun i n hn => ⟨initEntry n, by rw [loadNotes, List.getElem?_map, hn]; rfl, rfl⟩)
    (fun i hi => List.mem_range.mp hi)
    (fun jj => by rw [Nat.zero_add]; exact batchOutcomesFor_eq ns outcome jj)
    j]
  by_cases hj : j ∈ List.range ns.length
  · rw [if_pos hj]
  · rw [if_neg hj]
    rw [List.mem_range] at hj
    rw [List.getElem?_eq_none (by simp [loadNotes]; omega),
      List.getElem?_eq_none (by simp [expectedFinal]; omega)]

theorem loadNotes_get (ns : List MigrationNote) (i : Nat) (n : MigrationNote)
    (hn : ns[i]? = some n) : (loadNotes ns)[i]? = some (initEntry n) := by
  rw [loadNotes, List.getElem?_map, hn]
  rfl

theorem seqRunFrom_get (ns : List MigrationNote) (outcome : Nat → Option PreviewResponse)
    (hwf : ∀ (id : Nat) (p : PreviewResponse), outcome id = some p → p.note_id = id) :
    ∀ (idxs : List Nat) (c : Nat) (s : NotesState),
      (∀ i ∈ idxs, ∃ n, ns[i]? = some n ∧ s[i]? = some (initEntry n)) →
      idxs.Nodup →
      ∀ j, (seqRunFrom (loadNotes ns) outcome (fun _ => false) idxs c s)[j]? =
        if j ∈ idxs then (expectedFinal ns outcome)[j]? else s[j]? := by
  intro idxs
  induction idxs with
  | nil => intro c s _ _ j; simp [seqRunFrom]
  | cons i rest ih =>
      intro c s hpend hnd j
      obtain ⟨n, hn, hsi⟩ := hpend i (List.mem_cons_self _ _)
      have hsnap : (loadNotes ns)[i]? = some (initEntry n) := loadNotes_get ns i n hn
      have hstep : seqRunFrom (loadNotes ns) outcome (fun _ => false) (i :: rest) c s =
          seqRunFrom (loadNotes ns) outcome (fun _ => false) rest (c + 2)
            (regenFinish i (outcome n.note_id) (modifyIdx markPend i s)) := by
        simp [seqRunFrom, hsnap, initEntry]
      rw [hstep]
      have hinotrest : i ∉ rest := (List.nodup_cons.mp hnd).1
      have hs2i : (regenFinish i (outcome n.note_id) (modifyIdx markPend i s))[i]? =
          (expectedFinal ns outcome)[i]? := by
        unfold regenFinish
        rw [modifyIdx_get?_eq, modifyIdx_get?_eq, hsi]
        rw [expectedFinal_get ns outcome i n hn]
        cases ho : outcome n.note_id with
        | none => simp [markPend, initEntry, resolveEntry]
        | some p =>
            have hpid : p.note_id = n.note_id := hwf n.note_id p ho
            cases p with
            | mk pid pnf pact =>
                simp at hpid
                subst hpid
                simp [markPend, initEntry, resolveEntry]
      have hs2ne : ∀ (j' : Nat), j' ≠ i →
          (regenFinish i (outcome n.note_id) (modifyIdx markPend i s))[j']? = s[j']? := by
        intro j' hj'
        unfold regenFinish
        rw [modifyIdx_get?_ne _ _ _ _ hj', modifyIdx_get?_ne _ _ _ _ hj']
      have hih := ih (c + 2) (regenFinish i (outcome n.note_id) (modifyIdx markPend i s))
        (fun i' hi' => by
          obtain ⟨n', hn', hsi'⟩ := hpend i' (List.mem_cons_of_mem _ hi')
          exact ⟨n', hn', by
            rw [hs2ne i' (fun h => hinotrest (by rwa [h] at hi'))]
            exact hsi'⟩)
        (List.nodup_cons.mp hnd).2
      rw [hih j]
      by_cases hjrest : j ∈ rest
      · rw [if_pos hjrest, if_pos (List.mem_cons_of_mem _ hjrest)]
      · rw [if_neg hjrest]
        by_cases hji : j = i
        · subst hji
          rw [if_pos (List.mem_cons_self _ _)]
          exact hs2i
        · rw [hs2ne j hji, if_neg (fun hc => by
            rcases List.mem_cons.mp hc with h | h
            · exact hji h
            · exact hjrest h)]

theorem seq_final (ns : List MigrationNote) (outcome : Nat → Option PreviewResponse)
    (hwf : ∀ (id : Nat) (p : PreviewResponse), outcome id = some p → p.note_id = id) :
    seqGenerateAllPreviews outcome (fun _ => false) (loadNotes ns) =
      expectedFinal ns outcome := by
  apply List.ext_getElem?
  intro j
  unfold seqGenerateAllPreviews
  rw [show (loadNotes ns).length = ns.length by simp [loadNotes]]
  rw [seqRunFrom_get ns outcome hwf (List.range ns.length) 0 (loadNotes ns)
    (fun i hi => by
      rw [List.mem_range] at hi
      exact ⟨ns[i], List.getElem?_eq_getElem hi,
        loadNotes_get ns i ns[i] (List.getElem?_eq_getElem hi)⟩)
    (List.nodup_range ns.length) j]
  by_cases hj : j ∈ List.range ns.length
  · rw [if_pos hj]
  · rw [if_neg hj]
    rw [List.mem_range] at hj
    rw [List.getElem?_eq_none (by simp [loadNotes]; omega),
      List.getElem?_eq_none (by simp [expectedFinal]; omega)]

/-- Claim C9 counterexample: the two implementations do not issue the same
per-record payloads.  For the same freshly loaded record, the sequential hook
passes the old `English`/`Nederlands` values as fixed translations (both in
its single-entry path and its background loop) while the batched hook omits
them everywhere, and on approval the sequential hook tags only the card type
while the batched hook tags source and core/extra as well. -/
theorem C9_counterexample :
    (seqGenerateSinglePreviewRequest (initEntry exNote1) ≠
      requestOfBatchItem (batchItemOf (initEntry exNote1))) ∧
    (seqGenerateSinglePreviewRequest (initEntry exNote1) ≠
      generateSinglePreviewRequest (initEntry exNote1)) ∧
    (seqApproveRequest exReadyEntry exPreview1 ≠
      approveRequest "japanese_class" exReadyEntry exPreview1) := by
  decide

/-- Claim C9 (amended): the two implementations share the per-entry review
lifecycle but not the payloads.  Given the same per-record generation
outcomes (and distinct record identifiers), a full unaborted background pass
leaves every entry in the same state — same status, same proposal, same error
message — in the batched and in the sequential implementation; the remote
requests they issue, however, differ per record (see the counterexample). -/
theorem C9_amended (ns : List MigrationNote) (outcome : Nat → Option PreviewResponse)
    (hndid : (ns.map (fun n => n.note_id)).Nodup)
    (hwf : ∀ (id : Nat) (p : PreviewResponse), outcome id = some p → p.note_id = id) :
    generateAllPreviews (batchOutcomesFor outcome (loadNotes ns)) (fun _ => false)
        (loadNotes ns) =
      seqGenerateAllPreviews outcome (fun _ => false) (loadNotes ns) := by
  rw [batched_final ns outcome hndid, seq_final ns outcome hwf]

/-- Witness for `C9_amended` on two records, one successful and one failed
generation. -/
theorem C9_amended_witness :
    (([exNote1, exNote2].map (fun n => n.note_id)).Nodup) ∧
    (generateAllPreviews
        (batchOutcomesFor (fun id => if id = 1 then some exPreview1 else none)
          (loadNotes [exNote1, exNote2]))
        (fun _ => false) (loadNotes [exNote1, exNote2]) =
      seqGenerateAllPreviews (fun id => if id = 1 then some exPreview1 else none)
        (fun _ => false) (loadNotes [exNote1, exNote2])) :=
  ⟨by decide,
    C9_amended [exNote1, exNote2] (fun id => if id = 1 then some exPreview1 else none)
      (by decide)
      (fun id p h => by
        by_cases hid : id = 1
        · subst hid
          simp at h
          rw [← h]
          rfl
        · simp [hid] at h)⟩
